import Mathlib

/-!
Shallow embedding of the rocket-sim 6DOF flight simulation core
(src/dynamics/state.rs, src/dynamics/sixdof.rs, src/atmosphere.rs,
src/vehicle/stage.rs, src/vehicle/mission.rs, src/gnc_mod/pid.rs,
src/gnc_mod/guidance.rs, src/gnc_mod/tvc.rs, src/sim/integrator.rs,
src/sim/runner.rs).

The Rust code computes over f64.  The embedding idealises f64 as an
arbitrary linear ordered field `K`, with the transcendental primitives
(sqrt, sin, cos, asin, atan2, exp, powf and the constant pi) supplied by
an explicit `MathOps K` bundle.  Instantiating `K := ℝ` with the genuine
real functions (`realOps` below) gives the idealised exact-real semantics
of the program; all concrete runs below are evaluated at this
instantiation by `simp`/`norm_num`, on inputs engineered so that every
value feeding a branch or a claimed output is settled by exact rational
arithmetic.  Division by zero follows Lean's `x / 0 = 0` convention;
all concrete inputs used in counterexamples and witnesses avoid dividing
by zero, so they agree with the source's finite-arithmetic behaviour on
every value the corresponding theorem mentions.
-/

namespace RocketSim

/-- Bundle of the f64 math primitives used by the source
(`f64::sqrt`, `sin`, `cos`, `asin`, `atan2`, `exp`, `powf`,
`std::f64::consts::PI`). -/
structure MathOps (K : Type) where
  sqrt : K → K
  sin : K → K
  cos : K → K
  asin : K → K
  atan2 : K → K → K
  exp : K → K
  powf : K → K → K
  pi : K

variable {K : Type} [LinearOrderedField K]

/-- nalgebra `Vector3<f64>`. -/
structure Vec3 (K : Type) where
  x : K
  y : K
  z : K
deriving DecidableEq, Repr

namespace Vec3

/-- `Vector3::zeros()`. -/
def zero : Vec3 K := ⟨0, 0, 0⟩

instance : Zero (Vec3 K) := ⟨Vec3.zero⟩

instance : Add (Vec3 K) := ⟨fun a b => ⟨a.x + b.x, a.y + b.y, a.z + b.z⟩⟩

instance : Neg (Vec3 K) := ⟨fun a => ⟨-a.x, -a.y, -a.z⟩⟩

instance : Sub (Vec3 K) := ⟨fun a b => a + -b⟩

/-- Componentwise scaling `v * s` / `s * v`. -/
instance : SMul K (Vec3 K) := ⟨fun s a => ⟨s * a.x, s * a.y, s * a.z⟩⟩

/-- nalgebra `Vector3::dot`. -/
def dot (a b : Vec3 K) : K := a.x * b.x + a.y * b.y + a.z * b.z

/-- nalgebra `Vector3::cross`. -/
def cross (a b : Vec3 K) : Vec3 K :=
  ⟨a.y * b.z - a.z * b.y, a.z * b.x - a.x * b.z, a.x * b.y - a.y * b.x⟩

/-- nalgebra `Vector3::norm` (Euclidean norm via the sqrt primitive). -/
def norm (ops : MathOps K) (a : Vec3 K) : K := ops.sqrt (dot a a)

/-- nalgebra `Vector3::normalize` (divide by the norm). -/
def normalize (ops : MathOps K) (a : Vec3 K) : Vec3 K := (norm ops a)⁻¹ • a

/-- nalgebra `Vector3::z()` basis vector. -/
def unitZ : Vec3 K := ⟨0, 0, 1⟩

end Vec3

/-- nalgebra `Quaternion<f64>`: `w + x·i + y·j + z·k`. -/
structure Quat (K : Type) where
  w : K
  x : K
  y : K
  z : K
deriving DecidableEq, Repr

namespace Quat

/-- The zero quaternion. -/
def zero : Quat K := ⟨0, 0, 0, 0⟩

instance : Zero (Quat K) := ⟨Quat.zero⟩

/-- The identity quaternion (`UnitQuaternion::identity`). -/
def one : Quat K := ⟨1, 0, 0, 0⟩

instance : Add (Quat K) := ⟨fun a b => ⟨a.w + b.w, a.x + b.x, a.y + b.y, a.z + b.z⟩⟩

instance : SMul K (Quat K) := ⟨fun s a => ⟨s * a.w, s * a.x, s * a.y, s * a.z⟩⟩

/-- Hamilton product (nalgebra `Quaternion` multiplication). -/
def mul (a b : Quat K) : Quat K :=
  ⟨a.w * b.w - a.x * b.x - a.y * b.y - a.z * b.z,
   a.w * b.x + a.x * b.w + a.y * b.z - a.z * b.y,
   a.w * b.y - a.x * b.z + a.y * b.w + a.z * b.x,
   a.w * b.z + a.x * b.y - a.y * b.x + a.z * b.w⟩

instance : Mul (Quat K) := ⟨Quat.mul⟩

/-- Quaternion conjugate (the inverse of a unit quaternion). -/
def conj (a : Quat K) : Quat K := ⟨a.w, -a.x, -a.y, -a.z⟩

/-- A pure quaternion `[0, v]` (`Quaternion::new(0, vx, vy, vz)`). -/
def ofVec (v : Vec3 K) : Quat K := ⟨0, v.x, v.y, v.z⟩

/-- The vector (imaginary) part of a quaternion. -/
def vec (a : Quat K) : Vec3 K := ⟨a.x, a.y, a.z⟩

/-- Quaternion norm (via the sqrt primitive), as in nalgebra `Quaternion::norm`. -/
def norm (ops : MathOps K) (a : Quat K) : K :=
  ops.sqrt (a.w * a.w + a.x * a.x + a.y * a.y + a.z * a.z)

/-- nalgebra `UnitQuaternion::new_normalize`: divide by the norm. -/
def normalize (ops : MathOps K) (a : Quat K) : Quat K := (norm ops a)⁻¹ • a

/-- Rotation of a vector by a unit quaternion (nalgebra `UnitQuaternion * Vector3`):
`q ⊗ [0,v] ⊗ q⁻¹`, with the inverse of a unit quaternion being its conjugate. -/
def rotate (q : Quat K) (v : Vec3 K) : Vec3 K := vec (q * ofVec v * conj q)

end Quat

/-- Constant `G0` (src/dynamics/state.rs): standard gravity 9.80665 m/s². -/
def G0 : K := 196133 / 20000

/-- Constant `EARTH_RADIUS` (src/dynamics/state.rs): 6 371 000 m. -/
def EARTH_RADIUS : K := 6371000

-- ---------------------------------------------------------------------------
-- Vehicle data model (src/vehicle/stage.rs, src/vehicle/mission.rs)
-- ---------------------------------------------------------------------------

/-- Rust `Stage` (src/vehicle/stage.rs). -/
structure Stage (K : Type) where
  name : String
  dry_mass : K
  propellant_mass : K
  thrust : K
  isp : K
  cd : K
  area : K
  inertia : Vec3 K
  nozzle_offset : K
  cp_offset : K
  tvc_max : K
deriving DecidableEq, Repr

namespace Stage

/-- `Stage::mass_flow`: `thrust / (isp * G0)`. -/
def mass_flow (s : Stage K) : K := s.thrust / (s.isp * G0)

/-- `Stage::total_mass`: `dry_mass + propellant_mass`. -/
def total_mass (s : Stage K) : K := s.dry_mass + s.propellant_mass

end Stage

/-- Rust `Mission` (src/vehicle/mission.rs). -/
structure Mission (K : Type) where
  name : String
  stages : List (Stage K)
deriving DecidableEq, Repr

namespace Mission

/-- `Mission::total_mass`: sum of stage total (wet) masses. -/
def total_mass (m : Mission K) : K := (m.stages.map Stage.total_mass).sum

/-- `Mission::active_stage`: `stages.get(idx)`. -/
def active_stage (m : Mission K) (idx : Nat) : Option (Stage K) := m.stages.get? idx

end Mission

/-- `upper_stages_mass` (src/dynamics/sixdof.rs): total wet mass of all stages
above `current_idx`. -/
def upper_stages_mass (m : Mission K) (current_idx : Nat) : K :=
  ((m.stages.drop (current_idx + 1)).map Stage.total_mass).sum

-- ---------------------------------------------------------------------------
-- Atmosphere model (src/atmosphere.rs)
-- ---------------------------------------------------------------------------

/-- Constant `R_AIR` = 287.05287 J/(kg·K). -/
def R_AIR : K := 28705287 / 100000

/-- Constant `GAMMA` = 1.4. -/
def GAMMA : K := 7 / 5

/-- Constant `T0` = 288.15 K. -/
def T0 : K := 5763 / 20

/-- Constant `P0` = 101325 Pa. -/
def P0 : K := 101325

/-- Rust `Atmo` (src/atmosphere.rs). -/
structure Atmo (K : Type) where
  density : K
  pressure : K
  temperature : K
  sound_speed : K
deriving DecidableEq, Repr

/-- `gradient_layer` (src/atmosphere.rs). -/
def gradient_layer (ops : MathOps K) (h h_base t_base lapse p_base : K) : K × K :=
  let t := t_base + lapse * (h - h_base)
  let p := p_base * ops.powf (t / t_base) (-G0 / (lapse * R_AIR))
  (t, p)

/-- `isothermal_layer` (src/atmosphere.rs). -/
def isothermal_layer (ops : MathOps K) (h h_base t p_base : K) : K × K :=
  let p := p_base * ops.exp (-G0 / (R_AIR * t) * (h - h_base))
  (t, p)

/-- `isa` (src/atmosphere.rs): ISA 1976 atmosphere, 7 layers plus the
above-86 km exponential tail. -/
def isa (ops : MathOps K) (altitude_m : K) : Atmo K :=
  let h := max altitude_m 0
  let tp :=
    if h < 11000 then gradient_layer ops h 0 T0 (-(13 / 2000)) P0
    else if h < 20000 then isothermal_layer ops h 11000 (21665 / 100) (226321 / 10)
    else if h < 32000 then gradient_layer ops h 20000 (21665 / 100) (1 / 1000) (547489 / 100)
    else if h < 47000 then gradient_layer ops h 32000 (22865 / 100) (7 / 2500) (868019 / 1000)
    else if h < 51000 then isothermal_layer ops h 47000 (27065 / 100) (110906 / 1000)
    else if h < 71000 then gradient_layer ops h 51000 (27065 / 100) (-(7 / 2500)) (669389 / 10000)
    else if h < 86000 then gradient_layer ops h 71000 (21465 / 100) (-(1 / 500)) (395642 / 100000)
    else
      let t : K := 18687 / 100
      let p := (3734 / 10000 : K) * ops.exp (-(15 / 100000) * (h - 86000))
      (t, max p 0)
  let temperature := tp.1
  let pressure := tp.2
  let density := if temperature > 0 then pressure / (R_AIR * temperature) else 0
  { density := density
    pressure := pressure
    temperature := temperature
    sound_speed := ops.sqrt (GAMMA * R_AIR * temperature) }

-- ---------------------------------------------------------------------------
-- 6DOF state (src/dynamics/state.rs)
-- ---------------------------------------------------------------------------

/-- Rust `State` (src/dynamics/state.rs): the full 6DOF state vector.
The `quat` field embeds nalgebra's `UnitQuaternion` as its underlying
quaternion. -/
structure State (K : Type) where
  time : K
  pos : Vec3 K
  vel : Vec3 K
  quat : Quat K
  omega : Vec3 K
  mass : K
  stage_idx : Nat
deriving DecidableEq, Repr

/-- Rust `Deriv` (src/dynamics/state.rs): the state derivative.  `dquat` is a
raw (not unit) quaternion derivative. -/
structure Deriv (K : Type) where
  dpos : Vec3 K
  dvel : Vec3 K
  dquat : Quat K
  domega : Vec3 K
  dmass : K
deriving DecidableEq, Repr

/-- Rust `GncCommand` (src/dynamics/state.rs): pitch and yaw TVC gimbal
angles in radians. -/
structure GncCommand (K : Type) where
  gimbal_y : K
  gimbal_z : K
deriving DecidableEq, Repr

namespace GncCommand

/-- `GncCommand::default()`: both gimbal angles zero. -/
def default : GncCommand K := ⟨0, 0⟩

end GncCommand

/-- Rust `SimConfig` (src/dynamics/state.rs). -/
structure SimConfig (K : Type) where
  dt : K
  max_time : K
deriving DecidableEq, Repr

namespace State

/-- `State::apply` (src/dynamics/state.rs): advance the state by a derivative
scaled by `dt`; the quaternion is integrated as
`q_new = normalize(q + dq * dt)` and the mass is floored at zero. -/
def apply (ops : MathOps K) (s : State K) (d : Deriv K) (dt : K) : State K :=
  { time := s.time + dt
    pos := s.pos + dt • d.dpos
    vel := s.vel + dt • d.dvel
    quat := Quat.normalize ops (s.quat + dt • d.dquat)
    omega := s.omega + dt • d.domega
    mass := max (s.mass + dt * d.dmass) 0
    stage_idx := s.stage_idx }

/-- `State::body_z` (src/dynamics/state.rs): body Z-axis in the inertial
frame. -/
def body_z (s : State K) : Vec3 K := Quat.rotate s.quat Vec3.unitZ

/-- `State::pitch` (src/dynamics/state.rs): pitch angle from local
horizontal. -/
def pitch (ops : MathOps K) (s : State K) : K := ops.asin (body_z s).z

end State

-- ---------------------------------------------------------------------------
-- 6DOF equations of motion (src/dynamics/sixdof.rs)
-- ---------------------------------------------------------------------------

/-- Rust `f64::clamp(lo, hi)` for `lo ≤ hi` (for `lo > hi` the Rust call
panics; every use site below clamps to `[-tvc_max, tvc_max]`). -/
def fclamp (x lo hi : K) : K := min (max x lo) hi

/-- Drag-force block of `derivatives` (src/dynamics/sixdof.rs, identical to
`drag_force` in src/physics/aerodynamics.rs): quadratic drag opposing the
velocity, zero at speed ≤ 1e-6. -/
def drag_force (ops : MathOps K) (vel : Vec3 K) (atm : Atmo K) (cd area : K) : Vec3 K :=
  let speed := Vec3.norm ops vel
  if speed > 1 / 1000000 then
    let q_dyn := 1 / 2 * atm.density * speed * speed
    let drag_mag := q_dyn * cd * area
    drag_mag • -Vec3.normalize ops vel
  else 0

/-- Restoring-moment block of `derivatives` (src/dynamics/sixdof.rs, identical
to `restoring_moment` in src/physics/aerodynamics.rs): aerodynamic restoring
torque from the CP-CG offset, zero at speed ≤ 1 or negligible offset. -/
def restoring_moment (ops : MathOps K) (vel_body : Vec3 K) (speed : K) (atm : Atmo K)
    (area cp_offset : K) : Vec3 K :=
  if speed > 1 ∧ |cp_offset| > 1 / 1000000 then
    let q_dyn := 1 / 2 * atm.density * speed * speed
    let cn_alpha : K := 2
    let alpha_y := ops.atan2 vel_body.y vel_body.z
    let alpha_z := ops.atan2 vel_body.x vel_body.z
    let normal_force := q_dyn * area * cn_alpha
    ⟨-(normal_force * alpha_y * cp_offset), normal_force * alpha_z * cp_offset, 0⟩
  else 0

/-- Damping-moment block of `derivatives` (src/dynamics/sixdof.rs, identical
to `damping_moment` in src/physics/aerodynamics.rs): torque opposing the body
angular rate, zero at speed ≤ 1. -/
def damping_moment (vel_omega : Vec3 K) (speed : K) (atm : Atmo K) (area : K) : Vec3 K :=
  if speed > 1 then
    let q_dyn := 1 / 2 * atm.density * speed * speed
    let damp := q_dyn * area * (1 / 2); -(damp • vel_omega)
  else 0

/-- Thrust-vector block of `derivatives` (src/dynamics/sixdof.rs): body-frame
thrust deflected from the body +Z axis by the gimbal angles, each clamped to
`[-tvc_max, tvc_max]`, composed by direct sine/cosine projection. -/
def gimbal_thrust (ops : MathOps K) (stage : Stage K) (cmd : GncCommand K) : Vec3 K :=
  let gy := fclamp cmd.gimbal_y (-stage.tvc_max) stage.tvc_max
  let gz := fclamp cmd.gimbal_z (-stage.tvc_max) stage.tvc_max
  ⟨stage.thrust * ops.sin gz, stage.thrust * ops.sin gy,
   stage.thrust * ops.cos gy * ops.cos gz⟩

/-- `zero_deriv` (src/dynamics/sixdof.rs): gravity-only free-fall derivative
used once the stage index runs past the last stage. -/
def zero_deriv (s : State K) : Deriv K :=
  let alt := max s.pos.z 0
  let g := G0 * (EARTH_RADIUS / (EARTH_RADIUS + alt)) ^ 2
  { dpos := s.vel
    dvel := ⟨0, 0, -g⟩
    dquat := 0
    domega := 0
    dmass := 0 }

/-- `derivatives` (src/dynamics/sixdof.rs): the full 6DOF state derivative —
gravity, gimballed thrust, drag, thrust-offset torque, restoring and damping
torques, Euler's rigid-body equation, quaternion kinematics and mass flow. -/
def derivatives (ops : MathOps K) (s : State K) (m : Mission K) (cmd : GncCommand K) :
    Deriv K :=
  match Mission.active_stage m s.stage_idx with
  | none => zero_deriv s
  | some stage =>
    let alt := max s.pos.z 0
    let atm := isa ops alt
    let remaining_prop := s.mass - stage.dry_mass - upper_stages_mass m s.stage_idx
    let burning := remaining_prop > 1 / 100 ∧ stage.thrust > 0
    let g := G0 * (EARTH_RADIUS / (EARTH_RADIUS + alt)) ^ 2
    let f_gravity : Vec3 K := ⟨0, 0, -g * s.mass⟩
    let f_thrust_body : Vec3 K :=
      if burning then gimbal_thrust ops stage cmd else 0
    let f_thrust_inertial := Quat.rotate s.quat f_thrust_body
    let speed := Vec3.norm ops s.vel
    let f_drag := drag_force ops s.vel atm stage.cd stage.area
    let f_total := f_gravity + f_thrust_inertial + f_drag
    let accel := s.mass⁻¹ • f_total
    let torque_tvc : Vec3 K :=
      if burning then Vec3.cross ⟨0, 0, -stage.nozzle_offset⟩ f_thrust_body else 0
    let vel_body := Quat.rotate (Quat.conj s.quat) s.vel
    let torque_body :=
      torque_tvc + restoring_moment ops vel_body speed atm stage.area stage.cp_offset
        + damping_moment s.omega speed atm stage.area
    let i_vec := stage.inertia
    let i_omega : Vec3 K := ⟨i_vec.x * s.omega.x, i_vec.y * s.omega.y, i_vec.z * s.omega.z⟩
    let domega : Vec3 K :=
      ⟨(torque_body.x - (s.omega.y * i_omega.z - s.omega.z * i_omega.y)) / i_vec.x,
       (torque_body.y - (s.omega.z * i_omega.x - s.omega.x * i_omega.z)) / i_vec.y,
       (torque_body.z - (s.omega.x * i_omega.y - s.omega.y * i_omega.x)) / i_vec.z⟩
    let omega_quat := Quat.ofVec s.omega
    let dquat := (1 / 2 : K) • (s.quat * omega_quat)
    let dmass := if burning then -stage.mass_flow else 0
    { dpos := s.vel
      dvel := accel
      dquat := dquat
      domega := domega
      dmass := dmass }

-- ---------------------------------------------------------------------------
-- RK4 integrator (src/sim/integrator.rs)
-- ---------------------------------------------------------------------------

/-- The raw (pre-normalization) quaternion built by `rk4_step`
(src/sim/integrator.rs): the current quaternion plus the weighted sum
`(k1 + 2·k2 + 2·k3 + k4) · dt/6` of the four sub-stage quaternion
derivatives. -/
def rk4_raw_quat (ops : MathOps K) (s : State K) (m : Mission K) (cmd : GncCommand K)
    (dt : K) : Quat K :=
  let k1 := derivatives ops s m cmd
  let k2 := derivatives ops (State.apply ops s k1 (dt * (1 / 2))) m cmd
  let k3 := derivatives ops (State.apply ops s k2 (dt * (1 / 2))) m cmd
  let k4 := derivatives ops (State.apply ops s k3 dt) m cmd
  s.quat + (dt / 6) • (k1.dquat + (2 : K) • k2.dquat + (2 : K) • k3.dquat + k4.dquat)

/-- `rk4_step` (src/sim/integrator.rs): one classical RK4 step with the GNC
command held constant across the four derivative evaluations; the combined
quaternion is renormalized and the mass floored at zero. -/
def rk4_step (ops : MathOps K) (s : State K) (m : Mission K) (cmd : GncCommand K)
    (dt : K) : State K :=
  let k1 := derivatives ops s m cmd
  let k2 := derivatives ops (State.apply ops s k1 (dt * (1 / 2))) m cmd
  let k3 := derivatives ops (State.apply ops s k2 (dt * (1 / 2))) m cmd
  let k4 := derivatives ops (State.apply ops s k3 dt) m cmd
  { time := s.time + dt
    pos := s.pos + (dt / 6) • (k1.dpos + (2 : K) • k2.dpos + (2 : K) • k3.dpos + k4.dpos)
    vel := s.vel + (dt / 6) • (k1.dvel + (2 : K) • k2.dvel + (2 : K) • k3.dvel + k4.dvel)
    quat := Quat.normalize ops
      (s.quat + (dt / 6) • (k1.dquat + (2 : K) • k2.dquat + (2 : K) • k3.dquat + k4.dquat))
    omega := s.omega + (dt / 6) • (k1.domega + (2 : K) • k2.domega + (2 : K) • k3.domega
      + k4.domega)
    mass := max (s.mass + (k1.dmass + 2 * k2.dmass + 2 * k3.dmass + k4.dmass) * (dt / 6)) 0
    stage_idx := s.stage_idx }

-- ---------------------------------------------------------------------------
-- Staging state machine (src/sim/runner.rs)
-- ---------------------------------------------------------------------------

/-- `check_staging` (src/sim/runner.rs): if the active stage's remaining
propellant `mass - dry_mass - upper_stages_mass` is ≤ 0.01 kg and a next
stage exists, drop the active stage's dry mass and advance the stage index;
otherwise (including an index at or past the last stage) return the state
unchanged. -/
def check_staging (s : State K) (m : Mission K) : State K :=
  match Mission.active_stage m s.stage_idx with
  | none => s
  | some stage =>
    let upper_mass := upper_stages_mass m s.stage_idx
    let remaining_prop := s.mass - stage.dry_mass - upper_mass
    if remaining_prop ≤ 1 / 100 ∧ s.stage_idx + 1 < m.stages.length then
      { s with mass := s.mass - stage.dry_mass, stage_idx := s.stage_idx + 1 }
    else s

-- ---------------------------------------------------------------------------
-- PID controller (src/gnc_mod/pid.rs)
-- ---------------------------------------------------------------------------

/-- Rust `Pid` (src/gnc_mod/pid.rs): gains plus the mutable accumulator
state (integral, previous error). -/
structure Pid (K : Type) where
  kp : K
  ki : K
  kd : K
  integral : K
  prev_error : K
deriving DecidableEq, Repr

namespace Pid

/-- `Pid::new`: zero accumulator state. -/
def new (kp ki kd : K) : Pid K := ⟨kp, ki, kd, 0, 0⟩

/-- `Pid::update` (src/gnc_mod/pid.rs): accumulate the integral, clamp it to
[-1, 1] (anti-windup), form the discrete derivative (zero unless `dt > 0`),
and return the control output together with the updated controller state. -/
def update (p : Pid K) (error dt : K) : K × Pid K :=
  let integral := fclamp (p.integral + error * dt) (-1) 1
  let derivative := if dt > 0 then (error - p.prev_error) / dt else 0
  (p.kp * error + p.ki * integral + p.kd * derivative,
   { p with integral := integral, prev_error := error })

/-- `Pid::reset`: zero the accumulator state. -/
def reset (p : Pid K) : Pid K := { p with integral := 0, prev_error := 0 }

end Pid

-- ---------------------------------------------------------------------------
-- Guidance law (src/gnc_mod/guidance.rs)
-- ---------------------------------------------------------------------------

/-- `guidance_pitch` (src/gnc_mod/guidance.rs): three-phase pitch program —
vertical ascent for 2 s, linear pitchover to 45° until 15 s, then gravity
turn following the flight-path angle above a 5 m/s speed floor. -/
def guidance_pitch (ops : MathOps K) (s : State K) : K :=
  let t := s.time
  let t_vertical : K := 2
  let t_pitchover_end : K := 15
  let target_pitch := (45 : K) * (ops.pi / 180)
  if t < t_vertical then ops.pi / 2
  else if t < t_pitchover_end then
    let frac := (t - t_vertical) / (t_pitchover_end - t_vertical)
    ops.pi / 2 + frac * (target_pitch - ops.pi / 2)
  else
    let speed := Vec3.norm ops s.vel
    if speed > 5 then ops.asin (s.vel.z / speed) else target_pitch

-- ---------------------------------------------------------------------------
-- TVC controller (src/gnc_mod/tvc.rs)
-- ---------------------------------------------------------------------------

/-- Rust `TvcController` (src/gnc_mod/tvc.rs): a pitch PID and a yaw PID. -/
structure TvcController (K : Type) where
  pitch_pid : Pid K
  yaw_pid : Pid K
deriving DecidableEq, Repr

namespace TvcController

/-- `TvcController::new`: both loops tuned `kp = 2, ki = 0.1, kd = 0.5`. -/
def new : TvcController K :=
  ⟨Pid.new 2 (1 / 10) (1 / 2), Pid.new 2 (1 / 10) (1 / 2)⟩

/-- `TvcController::update` (src/gnc_mod/tvc.rs): run the guidance pitch
program, form pitch and yaw errors, and emit the two PID outputs directly as
the gimbal command (no clamping), together with the updated PID state. -/
def update (ops : MathOps K) (c : TvcController K) (s : State K) (dt : K) :
    GncCommand K × TvcController K :=
  let desired_pitch := guidance_pitch ops s
  let current_pitch := State.pitch ops s
  let pitch_error := desired_pitch - current_pitch
  let body_z_inertial := State.body_z s
  let yaw_error :=
    -(ops.atan2 body_z_inertial.x
      (ops.sqrt (body_z_inertial.y ^ 2 + body_z_inertial.z ^ 2)))
  let gy := Pid.update c.pitch_pid pitch_error dt
  let gz := Pid.update c.yaw_pid yaw_error dt
  (⟨gy.1, gz.1⟩, ⟨gy.2, gz.2⟩)

end TvcController

-- ---------------------------------------------------------------------------
-- Simulation runner (src/sim/runner.rs)
-- ---------------------------------------------------------------------------

/-- The polymorphic `Controller` trait (src/gnc_mod/controller.rs), modelled
as a state-transformer: from the controller's own state and the current
simulation state, produce a command and the next controller state. -/
structure Ctrl (K : Type) (σ : Type) where
  control : σ → State K → Mission K → K → GncCommand K × σ

/-- The ignition-time state built at the top of `simulate_with`
(src/sim/runner.rs): zero position/velocity/angular velocity, identity
attitude, total wet mass, stage index 0. -/
def init_state (m : Mission K) : State K :=
  { time := 0
    pos := 0
    vel := 0
    quat := Quat.one
    omega := 0
    mass := Mission.total_mass m
    stage_idx := 0 }

variable {σ : Type}

/-- The `while time < max_time` loop of `simulate_with` (src/sim/runner.rs),
with an explicit fuel parameter bounding the number of iterations (for
`dt > 0` the Rust loop performs at most `⌈max_time/dt⌉` iterations, so any
sufficiently large fuel reproduces it; the fuel-exhausted case simply stops
recording).  Each iteration asks the controller for a command, integrates one
RK4 step, applies staging, updates the launch flag once altitude exceeds 1 m,
and on ground impact (launched and altitude ≤ 0) clamps the altitude to
exactly 0, records the final sample and terminates. -/
def sim_loop (ops : MathOps K) (m : Mission K) (cfg : SimConfig K) (ctrl : Ctrl K σ) :
    Nat → State K → σ → Bool → List (State K) × List (GncCommand K)
  | 0, _, _, _ => ([], [])
  | Nat.succ fuel, s, cs, launched =>
    if s.time < cfg.max_time then
      let step := ctrl.control cs s m cfg.dt
      let cmd := step.1
      let s1 := rk4_step ops s m cmd cfg.dt
      let s2 := check_staging s1 m
      let launched2 := if s2.pos.z > 1 then true else launched
      if launched2 = true ∧ s2.pos.z ≤ 0 then
        ([{ s2 with pos := { s2.pos with z := 0 } }], [cmd])
      else
        let rest := sim_loop ops m cfg ctrl fuel s2 step.2 launched2
        (s2 :: rest.1, cmd :: rest.2)
    else ([], [])

/-- `simulate_with` (src/sim/runner.rs): run the mission loop from the
ignition state, returning the parallel trajectory and command sequences,
both beginning with the ignition sample and the default command. -/
def simulate_with (ops : MathOps K) (m : Mission K) (cfg : SimConfig K) (ctrl : Ctrl K σ)
    (cs0 : σ) (fuel : Nat) : List (State K) × List (GncCommand K) :=
  let s0 := init_state m
  let rest := sim_loop ops m cfg ctrl fuel s0 cs0 false
  (s0 :: rest.1, GncCommand.default :: rest.2)

/-- `simulate` (src/sim/runner.rs): `simulate_with` using the default
`TvcController`. -/
def simulate (ops : MathOps K) (m : Mission K) (cfg : SimConfig K) (fuel : Nat) :
    List (State K) × List (GncCommand K) :=
  simulate_with ops m cfg
    ⟨fun c s _ dt => TvcController.update ops c s dt⟩ TvcController.new fuel

-- ---------------------------------------------------------------------------
-- Instantiations of the math primitives
-- ---------------------------------------------------------------------------

/-- The idealised exact-real instantiation of the f64 primitives. -/
noncomputable def realOps : MathOps ℝ :=
  { sqrt := Real.sqrt
    sin := Real.sin
    cos := Real.cos
    asin := Real.arcsin
    atan2 := fun y x => Complex.arg ⟨x, y⟩
    exp := Real.exp
    powf := fun x y => x ^ y
    pi := Real.pi }

-- ---------------------------------------------------------------------------
-- Spec-side notions referenced by the claims
-- ---------------------------------------------------------------------------

/-- The vehicle's structural (dry) mass sum, as referenced by the spec's
mass-floor sentence. -/
def dry_mass_sum (m : Mission K) : K := (m.stages.map Stage.dry_mass).sum

/-- The largest stage dry mass of a mission (0 for an empty stage list). -/
def max_dry (m : Mission K) : K := (m.stages.map Stage.dry_mass).foldr max 0

/-- The per-sample invariant of the amended claim C1: exactly unit attitude
norm, mass no lower than minus the largest stage dry mass, and a stage index
that never leaves `0 .. N-1`. -/
def c1_inv (m : Mission ℝ) (s : State ℝ) : Prop :=
  Quat.norm realOps s.quat = 1 ∧ -(max_dry m) ≤ s.mass ∧
    s.stage_idx ≤ m.stages.length - 1

/-- The side condition under which renormalization is well defined along a
run: mirrors the recursion of `sim_loop` and requires the pre-normalization
quaternion of each executed RK4 step to be nonzero (in f64 a zero raw
quaternion would produce NaN attitudes; the real-semantics embedding makes
the same degeneracy explicit). -/
def raws_ok (ops : MathOps K) (m : Mission K) (cfg : SimConfig K) (ctrl : Ctrl K σ) :
    Nat → State K → σ → Bool → Prop
  | 0, _, _, _ => True
  | Nat.succ fuel, s, cs, launched =>
    if s.time < cfg.max_time then
      let step := ctrl.control cs s m cfg.dt
      rk4_raw_quat ops s m step.1 cfg.dt ≠ 0 ∧
        (let s2 := check_staging (rk4_step ops s m step.1 cfg.dt) m
         let launched2 := if s2.pos.z > 1 then true else launched
         if launched2 = true ∧ s2.pos.z ≤ 0 then True
         else raws_ok ops m cfg ctrl fuel s2 step.2 launched2)
    else True

/-- Iterated clamped accumulation of `error·dt` increments, as performed by
the PID integral channel across a sequence of calls. -/
def clamped_sum (acc : K) (stream : List (K × K)) : K :=
  stream.foldl (fun a ed => fclamp (a + ed.1 * ed.2) (-1) 1) acc

/-- Run a PID controller over a stream of `(error, dt)` calls, returning the
last output (0 for the empty stream) and the final controller state. -/
def pid_run (p : Pid K) (stream : List (K × K)) : K × Pid K :=
  stream.foldl (fun acc ed => Pid.update acc.2 ed.1 ed.2) (0, p)

-- ---------------------------------------------------------------------------
-- Concrete inputs for counterexamples and witnesses
-- ---------------------------------------------------------------------------

/-- A controller that always commands zero gimbal deflection. -/
def zeroCtrl : Ctrl K Unit := ⟨fun _ _ _ _ => (⟨0, 0⟩, ())⟩

/-- Booster stage of the concrete two-stage mission: 40 kg dry, 10 kg
propellant, `thrust/(isp·G0) = 15 kg/s` mass flow, and zero drag coefficient,
CP offset and nozzle offset so that every branch taken during the concrete
run is settled by exact rational arithmetic. -/
noncomputable def cxStage1 : Stage ℝ :=
  { name := "Booster"
    dry_mass := 40
    propellant_mass := 10
    thrust := 15 * G0
    isp := 1
    cd := 0
    area := 1
    inertia := ⟨1, 1, 1⟩
    nozzle_offset := 0
    cp_offset := 0
    tvc_max := 1 }

/-- Massless dummy upper stage (legal configuration data): its presence makes
`stage_idx + 1 < stages.len()` hold so that staging can fire. -/
noncomputable def cxStage2 : Stage ℝ :=
  { name := "Upper"
    dry_mass := 0
    propellant_mass := 0
    thrust := 0
    isp := 1
    cd := 0
    area := 1
    inertia := ⟨1, 1, 1⟩
    nozzle_offset := 0
    cp_offset := 0
    tvc_max := 1 }

/-- Concrete two-stage mission used by the C1 counterexample run. -/
noncomputable def cxMission : Mission ℝ := ⟨"CX", [cxStage1, cxStage2]⟩

/-- Concrete single-stage mission used by the C5 counterexample. -/
noncomputable def c5Mission : Mission ℝ := ⟨"C5", [cxStage1]⟩

/-- One-step simulation configuration: `dt = 1 s`, `max_time = 1 s`. -/
def cxCfg : SimConfig ℝ := ⟨1, 1⟩

/-- Concrete state for the C2 counterexample: identity attitude, all other
fields zero (mass 1). -/
noncomputable def c2State : State ℝ :=
  { time := 0, pos := 0, vel := 0, quat := Quat.one, omega := 0, mass := 1, stage_idx := 0 }

/-- Concrete derivative for the C2 counterexample: quaternion rate `2 + 4i`,
everything else zero. -/
noncomputable def c2Deriv : Deriv ℝ :=
  { dpos := 0, dvel := 0, dquat := ⟨2, 4, 0, 0⟩, domega := 0, dmass := 0 }

/-- Real-valued single-stage mission used by witnesses of the ℝ-instantiated
theorems. -/
noncomputable def wMissionR : Mission ℝ :=
  ⟨"W", [{ name := "Main"
           dry_mass := 20
           propellant_mass := 10
           thrust := 2000
           isp := 220
           cd := 3 / 10
           area := 1 / 125
           inertia := ⟨5, 5, 1 / 2⟩
           nozzle_offset := 1
           cp_offset := 3 / 10
           tvc_max := 1 / 10 }]⟩



/-- The four RK4 derivative stages of the first step of the counterexample
run, evaluated in exact arithmetic. -/
noncomputable def cxK1 : Deriv ℝ :=
  ⟨⟨0, 0, 0⟩, ⟨0, 0, -(1372931 / 200000)⟩, ⟨0, 0, 0, 0⟩, ⟨0, 0, 0⟩, -15⟩

/-- Second RK4 derivative stage of the counterexample run. -/
noncomputable def cxK2 : Deriv ℝ :=
  ⟨⟨0, 0, -(1372931 / 400000)⟩, ⟨0, 0, -(2157463 / 340000)⟩, ⟨0, 0, 0, 0⟩, ⟨0, 0, 0⟩, -15⟩

/-- Third RK4 derivative stage of the counterexample run. -/
noncomputable def cxK3 : Deriv ℝ :=
  ⟨⟨0, 0, -(2157463 / 680000)⟩, ⟨0, 0, -(2157463 / 340000)⟩, ⟨0, 0, 0, 0⟩, ⟨0, 0, 0⟩, -15⟩

/-- Fourth RK4 derivative stage of the counterexample run (propellant margin
exhausted at this sub-state, so thrust and mass flow are off). -/
noncomputable def cxK4 : Deriv ℝ :=
  ⟨⟨0, 0, -(2157463 / 340000)⟩, ⟨0, 0, -(196133 / 20000)⟩, ⟨0, 0, 0, 0⟩, ⟨0, 0, 0⟩, 0⟩

/-- Sub-state at which the second derivative stage is evaluated. -/
noncomputable def cxSub2 : State ℝ :=
  ⟨1 / 2, ⟨0, 0, 0⟩, ⟨0, 0, -(1372931 / 400000)⟩, ⟨1, 0, 0, 0⟩, ⟨0, 0, 0⟩, 85 / 2, 0⟩

/-- Sub-state at which the third derivative stage is evaluated. -/
noncomputable def cxSub3 : State ℝ :=
  ⟨1 / 2, ⟨0, 0, -(1372931 / 800000)⟩, ⟨0, 0, -(2157463 / 680000)⟩, ⟨1, 0, 0, 0⟩,
   ⟨0, 0, 0⟩, 85 / 2, 0⟩

/-- Sub-state at which the fourth derivative stage is evaluated. -/
noncomputable def cxSub4 : State ℝ :=
  ⟨1, ⟨0, 0, -(2157463 / 680000)⟩, ⟨0, 0, -(2157463 / 340000)⟩, ⟨1, 0, 0, 0⟩,
   ⟨0, 0, 0⟩, 35, 0⟩

/-- The state after the first RK4 step of the counterexample run: the mass,
37.5 kg, has already fallen below the 40 kg dry mass of the active stage. -/
noncomputable def cxS1 : State ℝ :=
  ⟨1, ⟨0, 0, -(22163029 / 6800000)⟩, ⟨0, 0, -(47660319 / 6800000)⟩, ⟨1, 0, 0, 0⟩,
   ⟨0, 0, 0⟩, 75 / 2, 0⟩

/-- The recorded state after staging in the counterexample run: staging
subtracts the 40 kg dry mass, leaving a negative total mass of −2.5 kg. -/
noncomputable def cxS2 : State ℝ :=
  ⟨1, ⟨0, 0, -(22163029 / 6800000)⟩, ⟨0, 0, -(47660319 / 6800000)⟩, ⟨1, 0, 0, 0⟩,
   ⟨0, 0, 0⟩, -(5 / 2), 1⟩

end RocketSim

-- ===========================================================================
-- Theorems
-- ===========================================================================

namespace RocketSim

set_option linter.unusedSectionVars false

variable {K : Type} [LinearOrderedField K] {σ : Type}

-- Componentwise evaluation lemmas for the vector/quaternion algebra.

@[simp] theorem v3_zero_mk : (0 : Vec3 K) = ⟨0, 0, 0⟩ := rfl

@[simp] theorem v3_add_mk (a b c d e f : K) :
    (⟨a, b, c⟩ + ⟨d, e, f⟩ : Vec3 K) = ⟨a + d, b + e, c + f⟩ := rfl

@[simp] theorem v3_neg_mk (a b c : K) : (-(⟨a, b, c⟩ : Vec3 K)) = ⟨-a, -b, -c⟩ := rfl

@[simp] theorem v3_smul_mk (s a b c : K) :
    (s • (⟨a, b, c⟩ : Vec3 K)) = ⟨s * a, s * b, s * c⟩ := rfl

@[simp] theorem v3_dot_mk (a b c d e f : K) :
    Vec3.dot (⟨a, b, c⟩ : Vec3 K) ⟨d, e, f⟩ = a * d + b * e + c * f := rfl

@[simp] theorem v3_cross_mk (a b c d e f : K) :
    Vec3.cross (⟨a, b, c⟩ : Vec3 K) ⟨d, e, f⟩
      = ⟨b * f - c * e, c * d - a * f, a * e - b * d⟩ := rfl

@[simp] theorem q_zero_mk : (0 : Quat K) = ⟨0, 0, 0, 0⟩ := rfl

@[simp] theorem q_one_mk : (Quat.one : Quat K) = ⟨1, 0, 0, 0⟩ := rfl

@[simp] theorem q_add_mk (a b c d e f g h : K) :
    (⟨a, b, c, d⟩ + ⟨e, f, g, h⟩ : Quat K) = ⟨a + e, b + f, c + g, d + h⟩ := rfl

@[simp] theorem q_smul_mk (s a b c d : K) :
    (s • (⟨a, b, c, d⟩ : Quat K)) = ⟨s * a, s * b, s * c, s * d⟩ := rfl

@[simp] theorem q_mul_mk (a b c d e f g h : K) :
    ((⟨a, b, c, d⟩ : Quat K) * ⟨e, f, g, h⟩)
      = ⟨a * e - b * f - c * g - d * h,
         a * f + b * e + c * h - d * g,
         a * g - b * h + c * e + d * f,
         a * h + b * g - c * f + d * e⟩ := rfl

@[simp] theorem q_conj_mk (a b c d : K) :
    Quat.conj (⟨a, b, c, d⟩ : Quat K) = ⟨a, -b, -c, -d⟩ := rfl

@[simp] theorem q_ofVec_mk (a b c : K) :
    Quat.ofVec (⟨a, b, c⟩ : Vec3 K) = ⟨0, a, b, c⟩ := rfl

@[simp] theorem q_vec_mk (a b c d : K) :
    Quat.vec (⟨a, b, c, d⟩ : Quat K) = ⟨b, c, d⟩ := rfl

-- Projections of the real-valued primitive bundle.

@[simp] theorem realOps_sqrt : realOps.sqrt = Real.sqrt := rfl

@[simp] theorem realOps_sin : realOps.sin = Real.sin := rfl

@[simp] theorem realOps_cos : realOps.cos = Real.cos := rfl

@[simp] theorem realOps_asin : realOps.asin = Real.arcsin := rfl

@[simp] theorem realOps_exp : realOps.exp = Real.exp := rfl

-- Clamping.

theorem fclamp_eq_self (x lo hi : K) (h1 : lo ≤ x) (h2 : x ≤ hi) :
    fclamp x lo hi = x := by
  simp [fclamp, max_eq_left h1, min_eq_left h2]

theorem fclamp_mem (x lo hi : K) (h : lo ≤ hi) :
    lo ≤ fclamp x lo hi ∧ fclamp x lo hi ≤ hi := by
  constructor
  · exact le_min (le_max_right x lo) h
  · exact min_le_right _ _

theorem fclamp_idem (x lo hi : K) (h : lo ≤ hi) :
    fclamp (fclamp x lo hi) lo hi = fclamp x lo hi :=
  fclamp_eq_self _ _ _ (fclamp_mem x lo hi h).1 (fclamp_mem x lo hi h).2

-- Unit norm after renormalization (real instantiation).

theorem qnorm_normalize (q : Quat ℝ) (h : q ≠ 0) :
    Quat.norm realOps (Quat.normalize realOps q) = 1 := by
  obtain ⟨w, x, y, z⟩ := q
  have hS0 : 0 ≤ w * w + x * x + y * y + z * z := by
    nlinarith [mul_self_nonneg w, mul_self_nonneg x, mul_self_nonneg y, mul_self_nonneg z]
  have hSne : w * w + x * x + y * y + z * z ≠ 0 := by
    intro h0
    apply h
    have hw : w = 0 := mul_self_eq_zero.mp (le_antisymm
      (by nlinarith [mul_self_nonneg x, mul_self_nonneg y, mul_self_nonneg z])
      (mul_self_nonneg w))
    have hx : x = 0 := mul_self_eq_zero.mp (le_antisymm
      (by nlinarith [mul_self_nonneg w, mul_self_nonneg y, mul_self_nonneg z])
      (mul_self_nonneg x))
    have hy : y = 0 := mul_self_eq_zero.mp (le_antisymm
      (by nlinarith [mul_self_nonneg w, mul_self_nonneg x, mul_self_nonneg z])
      (mul_self_nonneg y))
    have hz : z = 0 := mul_self_eq_zero.mp (le_antisymm
      (by nlinarith [mul_self_nonneg w, mul_self_nonneg x, mul_self_nonneg y])
      (mul_self_nonneg z))
    simp [q_zero_mk, hw, hx, hy, hz]
  have hsq : Real.sqrt (w * w + x * x + y * y + z * z)
      * Real.sqrt (w * w + x * x + y * y + z * z) = w * w + x * x + y * y + z * z :=
    Real.mul_self_sqrt hS0
  have hn : Real.sqrt (w * w + x * x + y * y + z * z) ≠ 0 := by
    intro h0
    rw [h0, mul_zero] at hsq
    exact hSne hsq.symm
  simp only [Quat.normalize, Quat.norm, realOps_sqrt, q_smul_mk]
  have harg : (Real.sqrt (w * w + x * x + y * y + z * z))⁻¹ * w
        * ((Real.sqrt (w * w + x * x + y * y + z * z))⁻¹ * w)
      + (Real.sqrt (w * w + x * x + y * y + z * z))⁻¹ * x
        * ((Real.sqrt (w * w + x * x + y * y + z * z))⁻¹ * x)
      + (Real.sqrt (w * w + x * x + y * y + z * z))⁻¹ * y
        * ((Real.sqrt (w * w + x * x + y * y + z * z))⁻¹ * y)
      + (Real.sqrt (w * w + x * x + y * y + z * z))⁻¹ * z
        * ((Real.sqrt (w * w + x * x + y * y + z * z))⁻¹ * z) = 1 := by
    field_simp
    try nlinarith [hsq]
  rw [harg, Real.sqrt_one]


-- Structural lemmas about the integrator, staging and the runner loop.

theorem rk4_step_eval (ops : MathOps K) (s : State K) (m : Mission K)
    (cmd : GncCommand K) (dt : K) (k1 k2 k3 k4 : Deriv K)
    (h1 : derivatives ops s m cmd = k1)
    (h2 : derivatives ops (State.apply ops s k1 (dt * (1 / 2))) m cmd = k2)
    (h3 : derivatives ops (State.apply ops s k2 (dt * (1 / 2))) m cmd = k3)
    (h4 : derivatives ops (State.apply ops s k3 dt) m cmd = k4) :
    rk4_step ops s m cmd dt =
      { time := s.time + dt
        pos := s.pos + (dt / 6) • (k1.dpos + (2 : K) • k2.dpos + (2 : K) • k3.dpos + k4.dpos)
        vel := s.vel + (dt / 6) • (k1.dvel + (2 : K) • k2.dvel + (2 : K) • k3.dvel + k4.dvel)
        quat := Quat.normalize ops
          (s.quat + (dt / 6) • (k1.dquat + (2 : K) • k2.dquat + (2 : K) • k3.dquat + k4.dquat))
        omega := s.omega + (dt / 6) • (k1.domega + (2 : K) • k2.domega
          + (2 : K) • k3.domega + k4.domega)
        mass := max (s.mass + (k1.dmass + 2 * k2.dmass + 2 * k3.dmass + k4.dmass) * (dt / 6)) 0
        stage_idx := s.stage_idx } := by
  subst h1; subst h2; subst h3; subst h4; rfl

theorem rk4_raw_quat_eval (ops : MathOps K) (s : State K) (m : Mission K)
    (cmd : GncCommand K) (dt : K) (k1 k2 k3 k4 : Deriv K)
    (h1 : derivatives ops s m cmd = k1)
    (h2 : derivatives ops (State.apply ops s k1 (dt * (1 / 2))) m cmd = k2)
    (h3 : derivatives ops (State.apply ops s k2 (dt * (1 / 2))) m cmd = k3)
    (h4 : derivatives ops (State.apply ops s k3 dt) m cmd = k4) :
    rk4_raw_quat ops s m cmd dt =
      s.quat + (dt / 6) • (k1.dquat + (2 : K) • k2.dquat + (2 : K) • k3.dquat + k4.dquat) := by
  subst h1; subst h2; subst h3; subst h4; rfl

theorem rk4_step_quat (ops : MathOps K) (s : State K) (m : Mission K)
    (cmd : GncCommand K) (dt : K) :
    (rk4_step ops s m cmd dt).quat = Quat.normalize ops (rk4_raw_quat ops s m cmd dt) := rfl

theorem rk4_step_stage_idx (ops : MathOps K) (s : State K) (m : Mission K)
    (cmd : GncCommand K) (dt : K) :
    (rk4_step ops s m cmd dt).stage_idx = s.stage_idx := rfl

theorem rk4_step_mass_nonneg (ops : MathOps K) (s : State K) (m : Mission K)
    (cmd : GncCommand K) (dt : K) : 0 ≤ (rk4_step ops s m cmd dt).mass :=
  le_max_right _ _

theorem check_staging_none (s : State K) (m : Mission K)
    (h : Mission.active_stage m s.stage_idx = none) : check_staging s m = s := by
  unfold check_staging
  rw [h]

theorem check_staging_some (s : State K) (m : Mission K) (stage : Stage K)
    (h : Mission.active_stage m s.stage_idx = some stage) :
    check_staging s m =
      if s.mass - stage.dry_mass - upper_stages_mass m s.stage_idx ≤ 1 / 100
          ∧ s.stage_idx + 1 < m.stages.length then
        { s with mass := s.mass - stage.dry_mass, stage_idx := s.stage_idx + 1 }
      else s := by
  unfold check_staging
  rw [h]

theorem check_staging_cases (s : State K) (m : Mission K) :
    check_staging s m = s ∨
      ∃ stage, Mission.active_stage m s.stage_idx = some stage ∧
        s.stage_idx + 1 < m.stages.length ∧
        s.mass - stage.dry_mass - upper_stages_mass m s.stage_idx ≤ 1 / 100 ∧
        check_staging s m =
          { s with mass := s.mass - stage.dry_mass, stage_idx := s.stage_idx + 1 } := by
  cases hst : Mission.active_stage m s.stage_idx with
  | none => exact Or.inl (check_staging_none s m hst)
  | some stage =>
    rw [check_staging_some s m stage hst]
    by_cases hc : s.mass - stage.dry_mass - upper_stages_mass m s.stage_idx ≤ 1 / 100
        ∧ s.stage_idx + 1 < m.stages.length
    · exact Or.inr ⟨stage, rfl, hc.2, hc.1, by rw [if_pos hc]⟩
    · exact Or.inl (by rw [if_neg hc])

theorem sim_loop_zero (ops : MathOps K) (m : Mission K) (cfg : SimConfig K)
    (ctrl : Ctrl K σ) (s : State K) (cs : σ) (l : Bool) :
    sim_loop ops m cfg ctrl 0 s cs l = ([], []) := rfl

theorem sim_loop_guard_false (ops : MathOps K) (m : Mission K) (cfg : SimConfig K)
    (ctrl : Ctrl K σ) (fuel : Nat) (s : State K) (cs : σ) (l : Bool)
    (h : ¬ s.time < cfg.max_time) :
    sim_loop ops m cfg ctrl (Nat.succ fuel) s cs l = ([], []) := by
  simp [sim_loop, h]

theorem sim_loop_succ_eval (ops : MathOps K) (m : Mission K) (cfg : SimConfig K)
    (ctrl : Ctrl K σ) (fuel : Nat) (s : State K) (cs : σ) (l : Bool)
    (cmd : GncCommand K) (cs2 : σ) (s2 : State K)
    (hg : s.time < cfg.max_time)
    (hcmd : ctrl.control cs s m cfg.dt = (cmd, cs2))
    (hs2 : check_staging (rk4_step ops s m cmd cfg.dt) m = s2) :
    sim_loop ops m cfg ctrl (Nat.succ fuel) s cs l =
      if (if s2.pos.z > 1 then true else l) = true ∧ s2.pos.z ≤ 0 then
        ([{ s2 with pos := { s2.pos with z := 0 } }], [cmd])
      else
        (s2 :: (sim_loop ops m cfg ctrl fuel s2 cs2 (if s2.pos.z > 1 then true else l)).1,
         cmd :: (sim_loop ops m cfg ctrl fuel s2 cs2 (if s2.pos.z > 1 then true else l)).2) := by
  simp only [sim_loop, if_pos hg, hcmd, hs2]

theorem sim_loop_length (ops : MathOps K) (m : Mission K) (cfg : SimConfig K)
    (ctrl : Ctrl K σ) :
    ∀ (fuel : Nat) (s : State K) (cs : σ) (l : Bool),
      (sim_loop ops m cfg ctrl fuel s cs l).1.length
        = (sim_loop ops m cfg ctrl fuel s cs l).2.length := by
  intro fuel
  induction fuel with
  | zero => intro s cs l; rfl
  | succ n ih =>
    intro s cs l
    by_cases hg : s.time < cfg.max_time
    · rcases hcmd : ctrl.control cs s m cfg.dt with ⟨cmd, cs2⟩
      rw [sim_loop_succ_eval ops m cfg ctrl n s cs l cmd cs2 _ hg hcmd rfl]
      by_cases himp : ((if (check_staging (rk4_step ops s m cmd cfg.dt) m).pos.z > 1
          then true else l) = true
          ∧ (check_staging (rk4_step ops s m cmd cfg.dt) m).pos.z ≤ 0)
      · rw [if_pos himp]
        rfl
      · rw [if_neg himp]
        simpa using ih _ _ _
    · rw [sim_loop_guard_false ops m cfg ctrl n s cs l hg]
      rfl



-- Concrete evaluation of the counterexample run (mission `cxMission`,
-- `dt = 1`, zero-command controller): first RK4 derivative stage.

theorem cx_k1_eval :
    derivatives realOps (init_state cxMission) cxMission ⟨0, 0⟩ = cxK1 := by
  simp [derivatives, Mission.active_stage, cxMission, cxStage1, cxStage2, init_state,
    Mission.total_mass, Stage.total_mass, Stage.mass_flow, upper_stages_mass, G0,
    EARTH_RADIUS, gimbal_thrust, fclamp, drag_force, restoring_moment, damping_moment,
    Quat.rotate, Quat.one, Quat.ofVec, Quat.vec, Quat.conj, Vec3.norm, Vec3.dot,
    Vec3.normalize, Vec3.unitZ, max_def, min_def, cxK1]
  norm_num

theorem cx_sub2_eval :
    State.apply realOps (init_state cxMission) cxK1 (1 * (1 / 2)) = cxSub2 := by
  simp [State.apply, init_state, cxMission, cxStage1, cxStage2, Mission.total_mass,
    Stage.total_mass, cxK1, cxSub2, Quat.normalize, Quat.norm, Quat.one, max_def]
  norm_num

theorem cx_k2_eval : derivatives realOps cxSub2 cxMission ⟨0, 0⟩ = cxK2 := by
  simp [derivatives, Mission.active_stage, cxMission, cxStage1, cxStage2, cxSub2,
    Mission.total_mass, Stage.total_mass, Stage.mass_flow, upper_stages_mass, G0,
    EARTH_RADIUS, gimbal_thrust, fclamp, drag_force, restoring_moment, damping_moment,
    Quat.rotate, Quat.one, Quat.ofVec, Quat.vec, Quat.conj, Vec3.norm, Vec3.dot,
    Vec3.normalize, Vec3.unitZ, max_def, min_def, cxK2]
  norm_num

theorem cx_sub3_eval :
    State.apply realOps (init_state cxMission) cxK2 (1 * (1 / 2)) = cxSub3 := by
  simp [State.apply, init_state, cxMission, cxStage1, cxStage2, Mission.total_mass,
    Stage.total_mass, cxK2, cxSub3, Quat.normalize, Quat.norm, Quat.one, max_def]
  norm_num

theorem cx_k3_eval : derivatives realOps cxSub3 cxMission ⟨0, 0⟩ = cxK3 := by
  simp [derivatives, Mission.active_stage, cxMission, cxStage1, cxStage2, cxSub3,
    Mission.total_mass, Stage.total_mass, Stage.mass_flow, upper_stages_mass, G0,
    EARTH_RADIUS, gimbal_thrust, fclamp, drag_force, restoring_moment, damping_moment,
    Quat.rotate, Quat.one, Quat.ofVec, Quat.vec, Quat.conj, Vec3.norm, Vec3.dot,
    Vec3.normalize, Vec3.unitZ, max_def, min_def, cxK3]
  norm_num

theorem cx_sub4_eval :
    State.apply realOps (init_state cxMission) cxK3 1 = cxSub4 := by
  simp [State.apply, init_state, cxMission, cxStage1, cxStage2, Mission.total_mass,
    Stage.total_mass, cxK3, cxSub4, Quat.normalize, Quat.norm, Quat.one, max_def]
  norm_num

theorem cx_k4_eval : derivatives realOps cxSub4 cxMission ⟨0, 0⟩ = cxK4 := by
  simp [derivatives, Mission.active_stage, cxMission, cxStage1, cxStage2, cxSub4,
    Mission.total_mass, Stage.total_mass, Stage.mass_flow, upper_stages_mass, G0,
    EARTH_RADIUS, gimbal_thrust, fclamp, drag_force, restoring_moment, damping_moment,
    Quat.rotate, Quat.one, Quat.ofVec, Quat.vec, Quat.conj, Vec3.norm, Vec3.dot,
    Vec3.normalize, Vec3.unitZ, max_def, min_def, cxK4]
  norm_num

theorem cx_rk4_eval :
    rk4_step realOps (init_state cxMission) cxMission ⟨0, 0⟩ 1 = cxS1 := by
  rw [rk4_step_eval realOps (init_state cxMission) cxMission ⟨0, 0⟩ 1 cxK1 cxK2 cxK3 cxK4
    cx_k1_eval (by rw [cx_sub2_eval]; exact cx_k2_eval)
    (by rw [cx_sub3_eval]; exact cx_k3_eval)
    (by rw [cx_sub4_eval]; exact cx_k4_eval)]
  simp [init_state, cxMission, cxStage1, cxStage2, Mission.total_mass, Stage.total_mass,
    cxK1, cxK2, cxK3, cxK4, cxS1, Quat.normalize, Quat.norm, Quat.one, max_def]
  norm_num

theorem cx_staging_eval : check_staging cxS1 cxMission = cxS2 := by
  rw [check_staging_some cxS1 cxMission cxStage1
    (by simp [cxMission, Mission.active_stage, cxS1])]
  rw [if_pos (by constructor
                 · simp [cxS1, cxStage1, upper_stages_mass, cxMission, cxStage2,
                     Stage.total_mass]
                   norm_num
                 · simp [cxMission, cxS1])]
  simp [cxS1, cxS2, cxStage1]
  norm_num

theorem cx_run_eval :
    (simulate_with realOps cxMission cxCfg zeroCtrl () 2).1
      = [init_state cxMission, cxS2] := by
  have hg : (init_state cxMission).time < cxCfg.max_time := by
    simp [init_state, cxMission, cxCfg]
  have hs2 : check_staging (rk4_step realOps (init_state cxMission) cxMission
      ⟨0, 0⟩ cxCfg.dt) cxMission = cxS2 := by
    rw [show cxCfg.dt = 1 from rfl, cx_rk4_eval]
    exact cx_staging_eval
  have hz : ¬ cxS2.pos.z > 1 := by
    simp only [cxS2]
    norm_num
  have hloop : sim_loop realOps cxMission cxCfg zeroCtrl 2 (init_state cxMission) () false
      = ([cxS2], [⟨0, 0⟩]) := by
    rw [show (2 : Nat) = Nat.succ 1 from rfl]
    rw [sim_loop_succ_eval realOps cxMission cxCfg zeroCtrl 1 (init_state cxMission) ()
      false ⟨0, 0⟩ () cxS2 hg rfl hs2]
    rw [if_neg (by rw [if_neg hz]; simp)]
    rw [sim_loop_guard_false realOps cxMission cxCfg zeroCtrl 0 cxS2 () _
      (by simp [cxS2, cxCfg])]
  simp [simulate_with, hloop]


-- Helper: the command enters `derivatives` only through `gimbal_thrust`.

theorem derivatives_cmd_congr (ops : MathOps K) (s : State K) (m : Mission K)
    (cmd1 cmd2 : GncCommand K) (stage : Stage K)
    (hst : Mission.active_stage m s.stage_idx = some stage)
    (h : gimbal_thrust ops stage cmd1 = gimbal_thrust ops stage cmd2) :
    derivatives ops s m cmd1 = derivatives ops s m cmd2 := by
  unfold derivatives
  rw [hst]
  simp only [h]

theorem derivatives_dmass_none (ops : MathOps K) (s : State K) (m : Mission K)
    (cmd : GncCommand K) (hst : Mission.active_stage m s.stage_idx = none) :
    (derivatives ops s m cmd).dmass = 0 := by
  unfold derivatives
  rw [hst]
  rfl

theorem derivatives_dmass_some (ops : MathOps K) (s : State K) (m : Mission K)
    (cmd : GncCommand K) (stage : Stage K)
    (hst : Mission.active_stage m s.stage_idx = some stage) :
    (derivatives ops s m cmd).dmass =
      if s.mass - stage.dry_mass - upper_stages_mass m s.stage_idx > 1 / 100
          ∧ stage.thrust > 0 then -stage.mass_flow else 0 := by
  unfold derivatives
  rw [hst]

theorem derivatives_dmass_nonpos (ops : MathOps K) (s : State K) (m : Mission K)
    (cmd : GncCommand K)
    (hstages : ∀ st ∈ m.stages, 0 < st.isp ∧ 0 ≤ st.thrust) :
    (derivatives ops s m cmd).dmass ≤ 0 := by
  cases hst : Mission.active_stage m s.stage_idx with
  | none => rw [derivatives_dmass_none ops s m cmd hst]
  | some stage =>
    rw [derivatives_dmass_some ops s m cmd stage hst]
    have hmem : stage ∈ m.stages := List.get?_mem hst
    obtain ⟨hisp, hthrust⟩ := hstages stage hmem
    split_ifs with hb
    · have hG : (0 : K) < G0 := by norm_num [G0]
      have : 0 ≤ stage.mass_flow :=
        div_nonneg hthrust (le_of_lt (mul_pos hisp hG))
      linarith
    · exact le_refl 0

theorem rk4_step_mass (ops : MathOps K) (s : State K) (m : Mission K)
    (cmd : GncCommand K) (dt : K) :
    (rk4_step ops s m cmd dt).mass =
      max (s.mass +
        ((derivatives ops s m cmd).dmass
          + 2 * (derivatives ops (State.apply ops s (derivatives ops s m cmd)
              (dt * (1 / 2))) m cmd).dmass
          + 2 * (derivatives ops (State.apply ops s (derivatives ops
              (State.apply ops s (derivatives ops s m cmd) (dt * (1 / 2))) m cmd)
              (dt * (1 / 2))) m cmd).dmass
          + (derivatives ops (State.apply ops s (derivatives ops (State.apply ops s
              (derivatives ops (State.apply ops s (derivatives ops s m cmd)
                (dt * (1 / 2))) m cmd) (dt * (1 / 2))) m cmd) dt) m cmd).dmass)
        * (dt / 6)) 0 := rfl

/-- C3: staging transition rule — with `remaining_propellant` computed as
`mass - dry_mass - upper_stages_mass`, an exhausted stage (≤ 0.01 kg) with a
next stage available drops exactly the active stage's dry mass and advances
the index by one; an index at the last stage (or past the end) leaves the
state unchanged. -/
theorem c3_staging_transition (s : State K) (m : Mission K) :
    (∀ stage, Mission.active_stage m s.stage_idx = some stage →
        (s.mass - stage.dry_mass - upper_stages_mass m s.stage_idx ≤ 1 / 100 →
            s.stage_idx + 1 < m.stages.length →
            check_staging s m =
              { s with mass := s.mass - stage.dry_mass, stage_idx := s.stage_idx + 1 }) ∧
          (m.stages.length ≤ s.stage_idx + 1 → check_staging s m = s)) ∧
    (m.stages.length ≤ s.stage_idx → check_staging s m = s) := by
  constructor
  · intro stage hst
    constructor
    · intro hrem hnext
      rw [check_staging_some s m stage hst, if_pos ⟨hrem, hnext⟩]
    · intro hlast
      rw [check_staging_some s m stage hst, if_neg]
      rintro ⟨-, hlt⟩
      omega
  · intro hpast
    exact check_staging_none s m (show m.stages.get? s.stage_idx = none from
      List.get?_eq_none.mpr hpast)

/-- Witness for C3 at a concrete input: the post-integration state of the
counterexample run satisfies the exhaustion condition, and staging drops the
booster's 40 kg dry mass and advances the index to 1. -/
theorem c3_staging_transition_witness :
    check_staging cxS1 cxMission
      = { cxS1 with mass := cxS1.mass - cxStage1.dry_mass,
                    stage_idx := cxS1.stage_idx + 1 } :=
  ((c3_staging_transition cxS1 cxMission).1 cxStage1
    (by simp [cxMission, Mission.active_stage, cxS1])).1
    (by simp [cxS1, cxStage1, upper_stages_mass, cxMission, cxStage2, Stage.total_mass]
        norm_num)
    (by simp [cxMission, cxS1])

/-- C10 (implicit): one staging check advances the stage index by at most
one — the output index is the input index or its successor — and whenever the
index does not change, the mass is unchanged as well. -/
theorem c10_staging_single_advance (s : State K) (m : Mission K) :
    ((check_staging s m).stage_idx = s.stage_idx ∨
      (check_staging s m).stage_idx = s.stage_idx + 1) ∧
    ((check_staging s m).stage_idx = s.stage_idx → (check_staging s m).mass = s.mass) := by
  rcases check_staging_cases s m with h | ⟨stage, hst, hlt, hrem, h⟩
  · rw [h]
    exact ⟨Or.inl rfl, fun _ => rfl⟩
  · constructor
    · right
      rw [h]
    · intro hidx
      rw [h] at hidx
      simp at hidx
/-- Witness for C10 at a concrete input: on the ignition state of the
counterexample mission staging does not fire, so the mass is unchanged. -/
theorem c10_staging_single_advance_witness :
    (check_staging (init_state cxMission) cxMission).mass = (init_state cxMission).mass := by
  have h : check_staging (init_state cxMission) cxMission = init_state cxMission := by
    rw [check_staging_some (init_state cxMission) cxMission cxStage1
      (by simp [cxMission, Mission.active_stage, init_state])]
    rw [if_neg]
    rintro ⟨hrem, -⟩
    rw [show (init_state cxMission).mass = 50 by
      simp [init_state, cxMission, Mission.total_mass, Stage.total_mass, cxStage1, cxStage2]
      norm_num] at hrem
    rw [show cxStage1.dry_mass = 40 from rfl] at hrem
    rw [show upper_stages_mass cxMission (init_state cxMission).stage_idx = 0 by
      simp [upper_stages_mass, cxMission, init_state, cxStage2, Stage.total_mass]] at hrem
    norm_num at hrem
  exact (c10_staging_single_advance (init_state cxMission) cxMission).2 (by rw [h])

/-- C6: when the stage index is at or past the number of stages, the
derivative function degrades to gravity-only free fall — position rate is the
velocity, acceleration is the inverse-square gravity pointing straight down,
and the quaternion rate, angular acceleration and mass flow are all zero; no
error is raised (the function is total). -/
theorem c6_past_last_stage_free_fall (ops : MathOps K) (s : State K) (m : Mission K)
    (cmd : GncCommand K) (h : m.stages.length ≤ s.stage_idx) :
    derivatives ops s m cmd =
      { dpos := s.vel
        dvel := ⟨0, 0, -(G0 * (EARTH_RADIUS / (EARTH_RADIUS + max s.pos.z 0)) ^ 2)⟩
        dquat := 0
        domega := 0
        dmass := 0 } := by
  unfold derivatives
  rw [show Mission.active_stage m s.stage_idx = none from List.get?_eq_none.mpr h]
  rfl

/-- Witness for C6 at a concrete input: a state with stage index 2 on the
two-stage counterexample mission. -/
theorem c6_past_last_stage_free_fall_witness :
    derivatives realOps { cxS2 with stage_idx := 2 } cxMission ⟨0, 0⟩ =
      { dpos := cxS2.vel
        dvel := ⟨0, 0, -(G0 * (EARTH_RADIUS / (EARTH_RADIUS + max cxS2.pos.z 0)) ^ 2)⟩
        dquat := 0
        domega := 0
        dmass := 0 } :=
  c6_past_last_stage_free_fall realOps { cxS2 with stage_idx := 2 } cxMission ⟨0, 0⟩
    (by simp [cxMission])

/-- C9: the speed-threshold guards of the force/torque model — drag is
exactly zero at speed ≤ 1e-6 m/s, and the aerodynamic restoring and damping
torques are exactly zero at speed ≤ 1 m/s (restoring is also zero for a
negligible CP offset), so the velocity normalization in `drag_force` and the
atan2 angle-of-attack computation in `restoring_moment` are only evaluated
above the thresholds and division by zero speed is unreachable. -/
theorem c9_speed_thresholds (ops : MathOps K) :
    (∀ (vel : Vec3 K) (atm : Atmo K) (cd area : K),
        Vec3.norm ops vel ≤ 1 / 1000000 → drag_force ops vel atm cd area = 0) ∧
    (∀ (vel_body : Vec3 K) (speed : K) (atm : Atmo K) (area cp_offset : K),
        speed ≤ 1 → restoring_moment ops vel_body speed atm area cp_offset = 0) ∧
    (∀ (vel_body : Vec3 K) (speed : K) (atm : Atmo K) (area cp_offset : K),
        |cp_offset| ≤ 1 / 1000000 →
          restoring_moment ops vel_body speed atm area cp_offset = 0) ∧
    (∀ (vel_omega : Vec3 K) (speed : K) (atm : Atmo K) (area : K),
        speed ≤ 1 → damping_moment vel_omega speed atm area = 0) := by
  refine ⟨?_, ?_, ?_, ?_⟩
  · intro vel atm cd area h
    unfold drag_force
    rw [if_neg (not_lt.mpr h)]
  · intro vel_body speed atm area cp_offset h
    unfold restoring_moment
    rw [if_neg]
    rintro ⟨h1, -⟩
    exact absurd h1 (not_lt.mpr h)
  · intro vel_body speed atm area cp_offset h
    unfold restoring_moment
    rw [if_neg]
    rintro ⟨-, h2⟩
    exact absurd h2 (not_lt.mpr h)
  · intro vel_omega speed atm area h
    unfold damping_moment
    rw [if_neg (not_lt.mpr h)]

/-- Witness for C9 at concrete inputs: zero velocity (speed = √0 = 0) and a
0.5 m/s speed with the sea-level atmosphere. -/
theorem c9_speed_thresholds_witness :
    drag_force realOps ⟨0, 0, 0⟩ (isa realOps 0) (3 / 10) (1 / 125) = 0 ∧
    restoring_moment realOps ⟨0, 0, 1 / 2⟩ (1 / 2) (isa realOps 0) (1 / 125) (3 / 10) = 0 ∧
    restoring_moment realOps ⟨0, 0, 5⟩ 5 (isa realOps 0) (1 / 125) 0 = 0 ∧
    damping_moment ⟨1, 0, 0⟩ (1 / 2) (isa realOps 0) (1 / 125) = 0 := by
  refine ⟨?_, ?_, ?_, ?_⟩
  · exact (c9_speed_thresholds realOps).1 _ _ _ _
      (by simp [Vec3.norm, Vec3.dot])
  · exact (c9_speed_thresholds realOps).2.1 _ _ _ _ _ (by norm_num)
  · exact (c9_speed_thresholds realOps).2.2.1 _ _ _ _ _ (by norm_num)
  · exact (c9_speed_thresholds realOps).2.2.2 _ _ _ _ (by norm_num)

/-- C7: gimbal clamping belongs to the force/torque model — `derivatives`
yields the same result for a command and for its clamped version (clamping
inside `derivatives` is idempotent, provided the stage's gimbal limit is
nonnegative, which is what makes the Rust `f64::clamp` call well defined),
while the default `TvcController` emits the raw PID outputs with no
clamping. -/
theorem c7_clamping_responsibility (ops : MathOps K) (s : State K) (m : Mission K)
    (cmd : GncCommand K) (stage : Stage K)
    (hst : Mission.active_stage m s.stage_idx = some stage)
    (htvc : 0 ≤ stage.tvc_max) :
    derivatives ops s m cmd =
      derivatives ops s m
        ⟨fclamp cmd.gimbal_y (-stage.tvc_max) stage.tvc_max,
         fclamp cmd.gimbal_z (-stage.tvc_max) stage.tvc_max⟩ ∧
    (∀ (c : TvcController K) (dt : K),
        (TvcController.update ops c s dt).1 =
          ⟨(Pid.update c.pitch_pid (guidance_pitch ops s - State.pitch ops s) dt).1,
           (Pid.update c.yaw_pid
             (-(ops.atan2 (State.body_z s).x
               (ops.sqrt ((State.body_z s).y ^ 2 + (State.body_z s).z ^ 2)))) dt).1⟩) := by
  constructor
  · have hlo : -stage.tvc_max ≤ stage.tvc_max := by linarith
    refine derivatives_cmd_congr ops s m cmd _ stage hst ?_
    unfold gimbal_thrust
    rw [show (⟨fclamp cmd.gimbal_y (-stage.tvc_max) stage.tvc_max,
        fclamp cmd.gimbal_z (-stage.tvc_max) stage.tvc_max⟩ : GncCommand K).gimbal_y
      = fclamp cmd.gimbal_y (-stage.tvc_max) stage.tvc_max from rfl]
    rw [show (⟨fclamp cmd.gimbal_y (-stage.tvc_max) stage.tvc_max,
        fclamp cmd.gimbal_z (-stage.tvc_max) stage.tvc_max⟩ : GncCommand K).gimbal_z
      = fclamp cmd.gimbal_z (-stage.tvc_max) stage.tvc_max from rfl]
    rw [fclamp_idem cmd.gimbal_y (-stage.tvc_max) stage.tvc_max hlo,
        fclamp_idem cmd.gimbal_z (-stage.tvc_max) stage.tvc_max hlo]
  · intro c dt
    rfl

/-- Witness for C7 at a concrete input: the booster stage of the
counterexample mission with an out-of-range command (gimbal 2 rad, limit
±1 rad). -/
theorem c7_clamping_responsibility_witness :
    derivatives realOps (init_state cxMission) cxMission ⟨2, -2⟩ =
      derivatives realOps (init_state cxMission) cxMission
        ⟨fclamp 2 (-cxStage1.tvc_max) cxStage1.tvc_max,
         fclamp (-2) (-cxStage1.tvc_max) cxStage1.tvc_max⟩ :=
  (c7_clamping_responsibility realOps (init_state cxMission) cxMission ⟨2, -2⟩ cxStage1
    (by simp [cxMission, Mission.active_stage, init_state])
    (by norm_num [cxStage1])).1


-- PID run lemmas.

theorem pid_run_integral_only (ki : K) :
    ∀ (stream : List (K × K)) (i pe o : K), stream ≠ [] →
      (stream.foldl (fun acc ed => Pid.update acc.2 ed.1 ed.2)
        (o, { kp := 0, ki := ki, kd := 0, integral := i, prev_error := pe })).1
        = ki * clamped_sum i stream := by
  intro stream
  induction stream with
  | nil => intro i pe o h; exact absurd rfl h
  | cons ed t ih =>
    intro i pe o _
    have hstep : Pid.update
        { kp := 0, ki := ki, kd := 0, integral := i, prev_error := pe } ed.1 ed.2
        = (ki * fclamp (i + ed.1 * ed.2) (-1) 1,
           { kp := 0, ki := ki, kd := 0, integral := fclamp (i + ed.1 * ed.2) (-1) 1,
             prev_error := ed.1 }) := by
      unfold Pid.update
      simp
    cases t with
    | nil =>
      simp only [List.foldl, hstep, clamped_sum]
    | cons ed2 t2 =>
      have := ih (fclamp (i + ed.1 * ed.2) (-1) 1) ed.1
        (ki * fclamp (i + ed.1 * ed.2) (-1) 1) (by simp)
      simp only [List.foldl, hstep] at this ⊢
      rw [this]
      simp only [clamped_sum, List.foldl]

theorem clamped_sum_no_saturation :
    ∀ (stream : List (K × K)) (acc : K),
      (∀ n, -1 ≤ acc + ((stream.take n).map (fun ed => ed.1 * ed.2)).sum ∧
            acc + ((stream.take n).map (fun ed => ed.1 * ed.2)).sum ≤ 1) →
      clamped_sum acc stream = acc + (stream.map (fun ed => ed.1 * ed.2)).sum := by
  intro stream
  induction stream with
  | nil => intro acc _; simp [clamped_sum]
  | cons ed t ih =>
    intro acc hbound
    have h1 := hbound 1
    simp only [List.take_succ_cons, List.take_zero, List.map_cons, List.map_nil,
      List.sum_cons, List.sum_nil, add_zero] at h1
    have hcl : fclamp (acc + ed.1 * ed.2) (-1) 1 = acc + ed.1 * ed.2 :=
      fclamp_eq_self _ _ _ h1.1 h1.2
    have hrest := ih (acc + ed.1 * ed.2) (fun n => by
      have := hbound (n + 1)
      simp only [List.take_succ_cons, List.map_cons, List.sum_cons] at this
      constructor
      · linarith [this.1]
      · linarith [this.2])
    simp only [clamped_sum, List.foldl, hcl] at hrest ⊢
    rw [hrest]
    simp only [List.map_cons, List.sum_cons]
    ring

/-- C8: PID unit properties — a single call with `ki = kd = 0` returns
exactly `kp · error` for any error, any step size and any accumulator state;
an integral-only controller run from the fresh state over a stream of
`(error, dt)` calls returns `ki ×` the running sum of `error·dt` increments
with the accumulated integral clamped to [-1, 1] after every call (and equal
to the plain sum `ki × Σ error·dt` when no clamping engages); and at
`dt = 0` the derivative term contributes nothing. -/
theorem c8_pid_update (kp ki : K) :
    (∀ (i pe e dt : K),
        (Pid.update { kp := kp, ki := 0, kd := 0, integral := i, prev_error := pe }
          e dt).1 = kp * e) ∧
    (∀ (stream : List (K × K)), stream ≠ [] →
        (pid_run (Pid.new 0 ki 0) stream).1 = ki * clamped_sum 0 stream) ∧
    (∀ (stream : List (K × K)),
        (∀ n, -1 ≤ ((stream.take n).map (fun ed => ed.1 * ed.2)).sum ∧
              ((stream.take n).map (fun ed => ed.1 * ed.2)).sum ≤ 1) →
        clamped_sum 0 stream = (stream.map (fun ed => ed.1 * ed.2)).sum) ∧
    (∀ (p : Pid K) (e : K),
        (Pid.update p e 0).1 = p.kp * e + p.ki * fclamp (p.integral + e * 0) (-1) 1) := by
  refine ⟨?_, ?_, ?_, ?_⟩
  · intro i pe e dt
    unfold Pid.update
    simp
  · intro stream hne
    unfold pid_run Pid.new
    exact pid_run_integral_only ki stream 0 0 0 hne
  · intro stream hbound
    have := clamped_sum_no_saturation stream 0 (fun n => by
      constructor
      · linarith [(hbound n).1]
      · linarith [(hbound n).2])
    rw [this]
    ring
  · intro p e
    unfold Pid.update
    simp

/-- Witness for C8 at concrete inputs: two integral-only calls with error 1
and dt 0.1 return 0.2 (as in the source's own unit test), and the
no-saturation identity holds on that stream. -/
theorem c8_pid_update_witness :
    (pid_run (Pid.new (0 : ℝ) 1 0) [(1, 1 / 10), (1, 1 / 10)]).1
        = 1 * clamped_sum 0 [(1, 1 / 10), (1, 1 / 10)] ∧
      clamped_sum (0 : ℝ) [(1, 1 / 10), (1, 1 / 10)]
        = ([((1 : ℝ), (1 / 10 : ℝ)), (1, 1 / 10)].map (fun ed => ed.1 * ed.2)).sum := by
  constructor
  · exact (c8_pid_update (0 : ℝ) 1).2.1 _ (by simp)
  · refine (c8_pid_update (0 : ℝ) 1).2.2.1 _ ?_
    intro n
    match n with
    | 0 => norm_num
    | 1 => norm_num
    | 2 => norm_num
    | (n + 3) =>
      rw [List.take_of_length_le (by simp)]
      norm_num

/-- C2 counterexample: `State.apply` does renormalize the sub-step
quaternion — for the identity attitude and quaternion rate `2 + 4i` over a
unit sub-step, the raw sum is `3 + 4i` (norm 5), and the stored intermediate
quaternion is its normalization `3/5 + 4/5·i`, not the raw sum, refuting
"intermediate states carry the raw (not renormalized) quaternion". -/
theorem c2_counterexample :
    (State.apply realOps c2State c2Deriv 1).quat = ⟨3 / 5, 4 / 5, 0, 0⟩ ∧
      (⟨3 / 5, 4 / 5, 0, 0⟩ : Quat ℝ) ≠ c2State.quat + (1 : ℝ) • c2Deriv.dquat := by
  have h25 : Real.sqrt 25 = 5 := by
    rw [show (25 : ℝ) = 5 ^ 2 by norm_num]
    exact Real.sqrt_sq (by norm_num)
  constructor
  · simp [State.apply, c2State, c2Deriv, Quat.normalize, Quat.norm, Quat.one]
    norm_num [h25]
  · simp [c2State, c2Deriv, Quat.one]
    norm_num

/-- C2 (amended): within one RK4 step the quaternion is renormalized four
times, not once — `State.apply` stores `normalize(q + dq·dt)` at each of the
three sub-states (unit norm whenever the raw sum is nonzero), and the
combined weighted sum `(k1 + 2k2 + 2k3 + k4)·dt/6` added to the current
quaternion is renormalized as well; the `dquat` derivative itself is raw. -/
theorem c2_renormalization (s : State ℝ) (d : Deriv ℝ) (m : Mission ℝ)
    (cmd : GncCommand ℝ) (dt : ℝ) :
    (State.apply realOps s d dt).quat = Quat.normalize realOps (s.quat + dt • d.dquat) ∧
    (s.quat + dt • d.dquat ≠ 0 →
      Quat.norm realOps (State.apply realOps s d dt).quat = 1) ∧
    (rk4_step realOps s m cmd dt).quat
        = Quat.normalize realOps (rk4_raw_quat realOps s m cmd dt) ∧
    (rk4_raw_quat realOps s m cmd dt ≠ 0 →
      Quat.norm realOps (rk4_step realOps s m cmd dt).quat = 1) := by
  refine ⟨rfl, ?_, rk4_step_quat realOps s m cmd dt, ?_⟩
  · intro h
    exact qnorm_normalize _ h
  · intro h
    rw [rk4_step_quat realOps s m cmd dt]
    exact qnorm_normalize _ h

/-- Witness for C2's amended claim at a concrete input: the renormalized
sub-step quaternion of the counterexample has norm exactly 1. -/
theorem c2_renormalization_witness :
    Quat.norm realOps (State.apply realOps c2State c2Deriv 1).quat = 1 :=
  (c2_renormalization c2State c2Deriv cxMission ⟨0, 0⟩ 1).2.1 (by
    simp [c2State, c2Deriv, Quat.one])

/-- C5 counterexample: the integrator floors the mass at zero, not at the
dry-mass sum — one RK4 step of the counterexample mission ends with mass
37.5 kg, strictly below the 40 kg dry-mass sum of the vehicle, refuting
"mass is floored at the sum of the stages' dry masses". -/
theorem c5_counterexample :
    (rk4_step realOps (init_state cxMission) cxMission ⟨0, 0⟩ 1).mass = 75 / 2 ∧
      (75 / 2 : ℝ) < dry_mass_sum cxMission := by
  constructor
  · rw [cx_rk4_eval]
    rfl
  · simp [dry_mass_sum, cxMission, cxStage1, cxStage2]
    norm_num

/-- C5 (amended): after integration the mass is floored at zero (not at the
dry-mass sum); one RK4 step never increases the mass provided every stage
has positive specific impulse and nonnegative thrust, the timestep is
nonnegative and the current mass is nonnegative; and a staging check never
increases the mass provided stage dry masses are nonnegative. -/
theorem c5_mass_floor (ops : MathOps K) (s : State K) (m : Mission K)
    (cmd : GncCommand K) (dt : K) (hdt : 0 ≤ dt) (hm : 0 ≤ s.mass)
    (hstages : ∀ st ∈ m.stages, 0 < st.isp ∧ 0 ≤ st.thrust ∧ 0 ≤ st.dry_mass) :
    0 ≤ (rk4_step ops s m cmd dt).mass ∧
    (rk4_step ops s m cmd dt).mass ≤ s.mass ∧
    (check_staging s m).mass ≤ s.mass := by
  have hstages' : ∀ st ∈ m.stages, 0 < st.isp ∧ 0 ≤ st.thrust :=
    fun st hmem => ⟨(hstages st hmem).1, (hstages st hmem).2.1⟩
  refine ⟨rk4_step_mass_nonneg ops s m cmd dt, ?_, ?_⟩
  · rw [rk4_step_mass]
    have h1 := derivatives_dmass_nonpos ops s m cmd hstages'
    have h2 := derivatives_dmass_nonpos ops
      (State.apply ops s (derivatives ops s m cmd) (dt * (1 / 2))) m cmd hstages'
    have h3 := derivatives_dmass_nonpos ops
      (State.apply ops s (derivatives ops (State.apply ops s (derivatives ops s m cmd)
        (dt * (1 / 2))) m cmd) (dt * (1 / 2))) m cmd hstages'
    have h4 := derivatives_dmass_nonpos ops
      (State.apply ops s (derivatives ops (State.apply ops s (derivatives ops
        (State.apply ops s (derivatives ops s m cmd) (dt * (1 / 2))) m cmd)
        (dt * (1 / 2))) m cmd) dt) m cmd hstages'
    have hsum : (derivatives ops s m cmd).dmass
        + 2 * (derivatives ops (State.apply ops s (derivatives ops s m cmd)
            (dt * (1 / 2))) m cmd).dmass
        + 2 * (derivatives ops (State.apply ops s (derivatives ops
            (State.apply ops s (derivatives ops s m cmd) (dt * (1 / 2))) m cmd)
            (dt * (1 / 2))) m cmd).dmass
        + (derivatives ops (State.apply ops s (derivatives ops (State.apply ops s
            (derivatives ops (State.apply ops s (derivatives ops s m cmd)
              (dt * (1 / 2))) m cmd) (dt * (1 / 2))) m cmd) dt) m cmd).dmass ≤ 0 := by
      linarith
    have hprod : ((derivatives ops s m cmd).dmass
        + 2 * (derivatives ops (State.apply ops s (derivatives ops s m cmd)
            (dt * (1 / 2))) m cmd).dmass
        + 2 * (derivatives ops (State.apply ops s (derivatives ops
            (State.apply ops s (derivatives ops s m cmd) (dt * (1 / 2))) m cmd)
            (dt * (1 / 2))) m cmd).dmass
        + (derivatives ops (State.apply ops s (derivatives ops (State.apply ops s
            (derivatives ops (State.apply ops s (derivatives ops s m cmd)
              (dt * (1 / 2))) m cmd) (dt * (1 / 2))) m cmd) dt) m cmd).dmass)
        * (dt / 6) ≤ 0 :=
      mul_nonpos_of_nonpos_of_nonneg hsum (by linarith)
    exact max_le (by linarith) hm
  · rcases check_staging_cases s m with h | ⟨stage, hst, hlt, hrem, h⟩
    · rw [h]
    · rw [h]
      have hmem : stage ∈ m.stages := List.get?_mem hst
      have := (hstages stage hmem).2.2
      simp only
      linarith

/-- Witness for C5's amended claim at a concrete input: one RK4 step on the
counterexample mission keeps the mass in `[0, 50]`. -/
theorem c5_mass_floor_witness :
    0 ≤ (rk4_step realOps (init_state cxMission) cxMission ⟨0, 0⟩ 1).mass ∧
      (rk4_step realOps (init_state cxMission) cxMission ⟨0, 0⟩ 1).mass
        ≤ (init_state cxMission).mass :=
  ⟨(c5_mass_floor realOps (init_state cxMission) cxMission ⟨0, 0⟩ 1 (by norm_num)
      (by simp [init_state, cxMission, Mission.total_mass, Stage.total_mass,
            cxStage1, cxStage2]
          norm_num)
      (by intro st hmem
          simp [cxMission] at hmem
          rcases hmem with h | h <;> subst h <;> norm_num [cxStage1, cxStage2, G0])).1,
   (c5_mass_floor realOps (init_state cxMission) cxMission ⟨0, 0⟩ 1 (by norm_num)
      (by simp [init_state, cxMission, Mission.total_mass, Stage.total_mass,
            cxStage1, cxStage2]
          norm_num)
      (by intro st hmem
          simp [cxMission] at hmem
          rcases hmem with h | h <;> subst h <;> norm_num [cxStage1, cxStage2, G0])).2.1⟩


-- Trace lemmas for the runner loop: once the vehicle has launched, a sample
-- at or below the ground can only be the final one, and the final sample is
-- clamped to altitude exactly 0 in that case.

theorem sim_loop_no_post_impact (ops : MathOps K) (m : Mission K) (cfg : SimConfig K)
    (ctrl : Ctrl K σ) :
    ∀ (fuel : Nat) (s : State K) (cs : σ) (l : Bool) (i : Nat) (x : State K),
      i + 1 < (sim_loop ops m cfg ctrl fuel s cs l).1.length →
      (sim_loop ops m cfg ctrl fuel s cs l).1.get? i = some x →
      (l = true ∨ ∃ j y, j ≤ i ∧ (sim_loop ops m cfg ctrl fuel s cs l).1.get? j = some y
        ∧ y.pos.z > 1) →
      0 < x.pos.z := by
  intro fuel
  induction fuel with
  | zero =>
    intro s cs l i x hlen _ _
    simp [sim_loop_zero] at hlen
  | succ n ih =>
    intro s cs l i x hlen hget hpre
    by_cases hg : s.time < cfg.max_time
    · rcases hcmd : ctrl.control cs s m cfg.dt with ⟨cmd, cs2⟩
      rw [sim_loop_succ_eval ops m cfg ctrl n s cs l cmd cs2 _ hg hcmd rfl]
        at hlen hget hpre
      by_cases himp : ((if (check_staging (rk4_step ops s m cmd cfg.dt) m).pos.z > 1
          then true else l) = true
          ∧ (check_staging (rk4_step ops s m cmd cfg.dt) m).pos.z ≤ 0)
      · rw [if_pos himp] at hlen
        simp at hlen
      · rw [if_neg himp] at hlen hget hpre
        have hl2 : l = true →
            (if (check_staging (rk4_step ops s m cmd cfg.dt) m).pos.z > 1
              then true else l) = true := by
          intro h
          split_ifs <;> simp [h]
        have hz2 : (check_staging (rk4_step ops s m cmd cfg.dt) m).pos.z > 1 →
            (if (check_staging (rk4_step ops s m cmd cfg.dt) m).pos.z > 1
              then true else l) = true := by
          intro h
          rw [if_pos h]
        cases i with
        | zero =>
          have hx : x = check_staging (rk4_step ops s m cmd cfg.dt) m := by
            simp at hget
            exact hget.symm
          subst hx
          have hlaunched : (if (check_staging (rk4_step ops s m cmd cfg.dt) m).pos.z > 1
              then true else l) = true := by
            rcases hpre with h | ⟨j, y, hj, hgety, hy⟩
            · exact hl2 h
            · interval_cases j
              simp at hgety
              subst hgety
              exact hz2 hy
          by_contra hzle
          exact himp ⟨hlaunched, by linarith [not_lt.mp hzle]⟩
        | succ i2 =>
          simp only [List.length_cons] at hlen
          simp only [List.get?_cons_succ] at hget
          refine ih (check_staging (rk4_step ops s m cmd cfg.dt) m) cs2 _ i2 x
            (by omega) hget ?_
          rcases hpre with h | ⟨j, y, hj, hgety, hy⟩
          · exact Or.inl (hl2 h)
          · cases j with
            | zero =>
              simp at hgety
              subst hgety
              exact Or.inl (hz2 hy)
            | succ j2 =>
              simp only [List.get?_cons_succ] at hgety
              exact Or.inr ⟨j2, y, by omega, hgety, hy⟩
    · rw [sim_loop_guard_false ops m cfg ctrl n s cs l hg] at hlen
      simp at hlen

theorem sim_loop_last_clamp (ops : MathOps K) (m : Mission K) (cfg : SimConfig K)
    (ctrl : Ctrl K σ) :
    ∀ (fuel : Nat) (s : State K) (cs : σ) (l : Bool) (t : State K),
      (sim_loop ops m cfg ctrl fuel s cs l).1.getLast? = some t →
      (l = true ∨ ∃ x ∈ (sim_loop ops m cfg ctrl fuel s cs l).1, x.pos.z > 1) →
      t.pos.z ≤ 0 → t.pos.z = 0 := by
  intro fuel
  induction fuel with
  | zero =>
    intro s cs l t hlast _ _
    simp [sim_loop_zero] at hlast
  | succ n ih =>
    intro s cs l t hlast hpre hle
    by_cases hg : s.time < cfg.max_time
    · rcases hcmd : ctrl.control cs s m cfg.dt with ⟨cmd, cs2⟩
      rw [sim_loop_succ_eval ops m cfg ctrl n s cs l cmd cs2 _ hg hcmd rfl]
        at hlast hpre
      by_cases himp : ((if (check_staging (rk4_step ops s m cmd cfg.dt) m).pos.z > 1
          then true else l) = true
          ∧ (check_staging (rk4_step ops s m cmd cfg.dt) m).pos.z ≤ 0)
      · rw [if_pos himp] at hlast
        simp at hlast
        rw [← hlast]
      · rw [if_neg himp] at hlast hpre
        have hl2 : l = true →
            (if (check_staging (rk4_step ops s m cmd cfg.dt) m).pos.z > 1
              then true else l) = true := by
          intro h
          split_ifs <;> simp [h]
        have hz2 : (check_staging (rk4_step ops s m cmd cfg.dt) m).pos.z > 1 →
            (if (check_staging (rk4_step ops s m cmd cfg.dt) m).pos.z > 1
              then true else l) = true := by
          intro h
          rw [if_pos h]
        cases hrest : (sim_loop ops m cfg ctrl n (check_staging (rk4_step ops s m cmd
            cfg.dt) m) cs2
            (if (check_staging (rk4_step ops s m cmd cfg.dt) m).pos.z > 1
              then true else l)).1 with
        | nil =>
          rw [hrest] at hlast
          simp at hlast
          subst hlast
          have hlaunched : (if (check_staging (rk4_step ops s m cmd cfg.dt) m).pos.z > 1
              then true else l) = true := by
            rcases hpre with h | ⟨x, hx, hxz⟩
            · exact hl2 h
            · rw [hrest] at hx
              simp at hx
              subst hx
              exact hz2 hxz
          exact absurd ⟨hlaunched, hle⟩ himp
        | cons a as =>
          rw [hrest] at hlast
          rw [List.getLast?_cons_cons] at hlast
          refine ih (check_staging (rk4_step ops s m cmd cfg.dt) m) cs2 _ t
            (by rw [hrest]; exact hlast) ?_ hle
          rcases hpre with h | ⟨x, hx, hxz⟩
          · exact Or.inl (hl2 h)
          · simp only [List.mem_cons] at hx
            rcases hx with hx | hx
            · subst hx
              exact Or.inl (hz2 hxz)
            · exact Or.inr ⟨x, by rw [hrest] at hx ⊢; exact hx, hxz⟩
    · rw [sim_loop_guard_false ops m cfg ctrl n s cs l hg] at hlast
      simp at hlast


/-- C4: runner contract of `simulate_with` — the trajectory and command
sequences always have equal length and begin with the ignition-time state
(zero position, velocity and angular velocity, identity attitude, total wet
mass, stage index 0) paired with the default command; a recorded sample that
is preceded (weakly) by a sample above 1 m altitude and sits at or below the
ground can only be the final one (ground impact terminates the run at that
step even when time < max_time), and in that case the final altitude is
exactly 0; and the loop stops at once when the time guard fails, while with
positive fuel and a positive time limit at least one step is taken. -/
theorem c4_runner_contract (ops : MathOps K) (m : Mission K) (cfg : SimConfig K)
    (ctrl : Ctrl K σ) (cs0 : σ) (fuel : Nat) :
    (simulate_with ops m cfg ctrl cs0 fuel).1.length
        = (simulate_with ops m cfg ctrl cs0 fuel).2.length ∧
    (simulate_with ops m cfg ctrl cs0 fuel).1.head? = some (init_state m) ∧
    (simulate_with ops m cfg ctrl cs0 fuel).2.head? = some GncCommand.default ∧
    (∀ (i : Nat) (x : State K),
        i + 1 < (simulate_with ops m cfg ctrl cs0 fuel).1.length →
        (simulate_with ops m cfg ctrl cs0 fuel).1.get? i = some x →
        (∃ j y, j ≤ i ∧ (simulate_with ops m cfg ctrl cs0 fuel).1.get? j = some y
          ∧ y.pos.z > 1) →
        0 < x.pos.z) ∧
    (∀ t, (simulate_with ops m cfg ctrl cs0 fuel).1.getLast? = some t →
        (∃ x ∈ (simulate_with ops m cfg ctrl cs0 fuel).1, x.pos.z > 1) →
        t.pos.z ≤ 0 → t.pos.z = 0) ∧
    (cfg.max_time ≤ 0 → (simulate_with ops m cfg ctrl cs0 fuel).1 = [init_state m]) ∧
    (0 < fuel → 0 < cfg.max_time → 1 < (simulate_with ops m cfg ctrl cs0 fuel).1.length) := by
  refine ⟨?_, rfl, rfl, ?_, ?_, ?_, ?_⟩
  · simp only [simulate_with, List.length_cons]
    rw [sim_loop_length]
  · intro i x hlen hget hpre
    simp only [simulate_with] at hlen hget hpre
    cases i with
    | zero =>
      rcases hpre with ⟨j, y, hj, hgety, hy⟩
      interval_cases j
      simp only [List.get?_cons_zero, Option.some.injEq] at hgety
      subst hgety
      simp [init_state] at hy
      exact absurd hy (by norm_num)
    | succ i2 =>
      simp only [List.get?_cons_succ] at hget
      simp only [List.length_cons] at hlen
      refine sim_loop_no_post_impact ops m cfg ctrl fuel (init_state m) cs0 false i2 x
        (by omega) hget ?_
      rcases hpre with ⟨j, y, hj, hgety, hy⟩
      cases j with
      | zero =>
        simp only [List.get?_cons_zero, Option.some.injEq] at hgety
        subst hgety
        simp [init_state] at hy
        exact absurd hy (by norm_num)
      | succ j2 =>
        simp only [List.get?_cons_succ] at hgety
        exact Or.inr ⟨j2, y, by omega, hgety, hy⟩
  · intro t hlast hpre hle
    simp only [simulate_with] at hlast hpre
    cases hts : (sim_loop ops m cfg ctrl fuel (init_state m) cs0 false).1 with
    | nil =>
      rw [hts] at hlast
      simp at hlast
      rw [← hlast] at hle ⊢
      simp [init_state] at hle ⊢
    | cons a as =>
      rw [hts] at hlast
      rw [List.getLast?_cons_cons] at hlast
      refine sim_loop_last_clamp ops m cfg ctrl fuel (init_state m) cs0 false t
        (by rw [hts]; exact hlast) ?_ hle
      rcases hpre with ⟨x, hx, hxz⟩
      simp only [List.mem_cons] at hx
      rcases hx with hx | hx
      · subst hx
        simp [init_state] at hxz
        exact absurd hxz (by norm_num)
      · exact Or.inr ⟨x, hx, hxz⟩
  · intro h
    cases fuel with
    | zero => rfl
    | succ n =>
      simp only [simulate_with]
      rw [sim_loop_guard_false ops m cfg ctrl n (init_state m) cs0 false
        (by rw [show (init_state m).time = 0 from rfl]; exact not_lt.mpr h)]
  · intro hfuel hmt
    cases fuel with
    | zero => exact absurd hfuel (by omega)
    | succ n =>
      have hg : (init_state m).time < cfg.max_time := by
        rw [show (init_state m).time = 0 from rfl]
        exact hmt
      rcases hcmd : ctrl.control cs0 (init_state m) m cfg.dt with ⟨cmd, cs2⟩
      simp only [simulate_with, List.length_cons]
      rw [sim_loop_succ_eval ops m cfg ctrl n (init_state m) cs0 false cmd cs2 _ hg
        hcmd rfl]
      by_cases himp : ((if (check_staging (rk4_step ops (init_state m) m cmd cfg.dt)
          m).pos.z > 1 then true else false) = true
          ∧ (check_staging (rk4_step ops (init_state m) m cmd cfg.dt) m).pos.z ≤ 0)
      · rw [if_pos himp]
        simp
      · rw [if_neg himp]
        simp

/-- Witness for C4 at a concrete input: the counterexample run (fuel 2) has
parallel sequences of equal length headed by the ignition sample and the
default command, and with `max_time = 0` the loop body never runs. -/
theorem c4_runner_contract_witness :
    (simulate_with realOps cxMission cxCfg zeroCtrl () 2).1.length
        = (simulate_with realOps cxMission cxCfg zeroCtrl () 2).2.length ∧
      (simulate_with realOps cxMission cxCfg zeroCtrl () 2).1.head?
        = some (init_state cxMission) ∧
      (simulate_with realOps cxMission ⟨1, 0⟩ zeroCtrl () 2).1 = [init_state cxMission] :=
  ⟨(c4_runner_contract realOps cxMission cxCfg zeroCtrl () 2).1,
   (c4_runner_contract realOps cxMission cxCfg zeroCtrl () 2).2.1,
   (c4_runner_contract realOps cxMission ⟨1, 0⟩ zeroCtrl () 2).2.2.2.2.2.1 (le_refl 0)⟩

/-- C1 counterexample: the recorded state after the first outer step of the
counterexample run has mass −2.5 kg — staging subtracted the 40 kg dry mass
from a 37.5 kg vehicle — refuting the claimed `mass ≥ 0` trajectory
invariant. -/
theorem c1_counterexample :
    ((simulate_with realOps cxMission cxCfg zeroCtrl () 2).1.get? 1).map State.mass
        = some (-(5 / 2)) ∧ (-(5 / 2) : ℝ) < 0 := by
  constructor
  · rw [cx_run_eval]
    rfl
  · norm_num


-- Bounds on the largest stage dry mass.

theorem foldr_max_nonneg (l : List K) : 0 ≤ l.foldr max 0 := by
  induction l with
  | nil => exact le_refl 0
  | cons a t ih => exact le_trans ih (le_max_right a _)

theorem le_foldr_max (x : K) (l : List K) (h : x ∈ l) : x ≤ l.foldr max 0 := by
  induction l with
  | nil => cases h
  | cons a t ih =>
    rcases List.mem_cons.mp h with h | h
    · subst h
      exact le_max_left x _
    · exact le_trans (ih h) (le_max_right a _)

theorem max_dry_nonneg (m : Mission K) : 0 ≤ max_dry m := foldr_max_nonneg _

theorem dry_le_max_dry (m : Mission K) (st : Stage K) (h : st ∈ m.stages) :
    st.dry_mass ≤ max_dry m :=
  le_foldr_max _ _ (List.mem_map_of_mem _ h)

-- Unfolding of the raw-quaternion side condition.

theorem raws_ok_succ_eval (ops : MathOps K) (m : Mission K) (cfg : SimConfig K)
    (ctrl : Ctrl K σ) (fuel : Nat) (s : State K) (cs : σ) (l : Bool)
    (cmd : GncCommand K) (cs2 : σ) (s2 : State K)
    (hg : s.time < cfg.max_time)
    (hcmd : ctrl.control cs s m cfg.dt = (cmd, cs2))
    (hs2 : check_staging (rk4_step ops s m cmd cfg.dt) m = s2) :
    raws_ok ops m cfg ctrl (Nat.succ fuel) s cs l =
      (rk4_raw_quat ops s m cmd cfg.dt ≠ 0 ∧
        (if (if s2.pos.z > 1 then true else l) = true ∧ s2.pos.z ≤ 0 then True
         else raws_ok ops m cfg ctrl fuel s2 cs2 (if s2.pos.z > 1 then true else l))) := by
  subst hs2
  simp only [raws_ok, if_pos hg, hcmd]

-- One outer step preserves the amended per-sample invariant.

theorem c1_inv_step (m : Mission ℝ) (s : State ℝ) (cmd : GncCommand ℝ) (dt : ℝ)
    (hinv : c1_inv m s) (hraw : rk4_raw_quat realOps s m cmd dt ≠ 0) :
    c1_inv m (check_staging (rk4_step realOps s m cmd dt) m) ∧
      s.stage_idx ≤ (check_staging (rk4_step realOps s m cmd dt) m).stage_idx := by
  have hq1 : Quat.norm realOps (rk4_step realOps s m cmd dt).quat = 1 := by
    rw [rk4_step_quat]
    exact qnorm_normalize _ hraw
  have hm1 : 0 ≤ (rk4_step realOps s m cmd dt).mass := rk4_step_mass_nonneg realOps s m cmd dt
  have hidx1 : (rk4_step realOps s m cmd dt).stage_idx = s.stage_idx :=
    rk4_step_stage_idx realOps s m cmd dt
  rcases check_staging_cases (rk4_step realOps s m cmd dt) m with h | ⟨st, hst, hlt, hrem, h⟩
  · rw [h]
    refine ⟨⟨hq1, ?_, ?_⟩, le_of_eq hidx1.symm⟩
    · linarith [max_dry_nonneg m]
    · rw [hidx1]
      exact hinv.2.2
  · rw [h]
    have hmem : st ∈ m.stages := List.get?_mem hst
    have hdry : st.dry_mass ≤ max_dry m := dry_le_max_dry m st hmem
    refine ⟨⟨hq1, ?_, ?_⟩, ?_⟩
    · show -(max_dry m) ≤ (rk4_step realOps s m cmd dt).mass - st.dry_mass
      linarith
    · show (rk4_step realOps s m cmd dt).stage_idx + 1 ≤ m.stages.length - 1
      omega
    · show s.stage_idx ≤ (rk4_step realOps s m cmd dt).stage_idx + 1
      omega

-- The loop preserves the amended invariant along the whole recorded suffix.

theorem sim_loop_c1_inv (m : Mission ℝ) (cfg : SimConfig ℝ) (ctrl : Ctrl ℝ σ) :
    ∀ (fuel : ℕ) (s : State ℝ) (cs : σ) (l : Bool),
      c1_inv m s →
      raws_ok realOps m cfg ctrl fuel s cs l →
      (∀ x ∈ (sim_loop realOps m cfg ctrl fuel s cs l).1, c1_inv m x) ∧
      List.Chain (fun a b : State ℝ => a.stage_idx ≤ b.stage_idx) s
        (sim_loop realOps m cfg ctrl fuel s cs l).1 := by
  intro fuel
  induction fuel with
  | zero =>
    intro s cs l _ _
    rw [sim_loop_zero]
    exact ⟨by simp, List.Chain.nil⟩
  | succ n ih =>
    intro s cs l hinv hraws
    by_cases hg : s.time < cfg.max_time
    · rcases hcmd : ctrl.control cs s m cfg.dt with ⟨cmd, cs2⟩
      rw [raws_ok_succ_eval realOps m cfg ctrl n s cs l cmd cs2 _ hg hcmd rfl] at hraws
      obtain ⟨hraw, hrest⟩ := hraws
      rw [sim_loop_succ_eval realOps m cfg ctrl n s cs l cmd cs2 _ hg hcmd rfl]
      obtain ⟨hinv2, hidx2⟩ := c1_inv_step m s cmd cfg.dt hinv hraw
      by_cases himp : ((if (check_staging (rk4_step realOps s m cmd cfg.dt) m).pos.z > 1
          then true else l) = true
          ∧ (check_staging (rk4_step realOps s m cmd cfg.dt) m).pos.z ≤ 0)
      · rw [if_pos himp]
        constructor
        · intro x hx
          simp only [List.mem_singleton] at hx
          subst hx
          exact ⟨hinv2.1, hinv2.2.1, hinv2.2.2⟩
        · exact List.Chain.cons hidx2 List.Chain.nil
      · rw [if_neg himp] at hrest ⊢
        obtain ⟨hmem, hchain⟩ := ih _ cs2 _ hinv2 hrest
        constructor
        · intro x hx
          rcases List.mem_cons.mp hx with hx | hx
          · subst hx
            exact hinv2
          · exact hmem x hx
        · exact List.Chain.cons hidx2 hchain
    · rw [sim_loop_guard_false realOps m cfg ctrl n s cs l hg]
      exact ⟨by simp, List.Chain.nil⟩

theorem c1_inv_init (m : Mission ℝ)
    (hsane : ∀ st ∈ m.stages, 0 ≤ st.dry_mass ∧ 0 ≤ st.propellant_mass) :
    c1_inv m (init_state m) := by
  refine ⟨?_, ?_, Nat.zero_le _⟩
  · show Quat.norm realOps Quat.one = 1
    simp [Quat.norm, Quat.one]
  · show -(max_dry m) ≤ (init_state m).mass
    have h1 : 0 ≤ Mission.total_mass m := by
      unfold Mission.total_mass
      apply List.sum_nonneg
      intro x hx
      obtain ⟨st, hmem, rfl⟩ := List.mem_map.mp hx
      have := hsane st hmem
      unfold Stage.total_mass
      linarith [this.1, this.2]
    show -(max_dry m) ≤ Mission.total_mass m
    linarith [max_dry_nonneg m]

/-- C1 (amended): along any run with nonnegative stage masses and with the
integrator's pre-normalization quaternion nonzero at every executed step,
every recorded state has attitude-quaternion norm exactly 1 and stage index
in `0 .. N-1`, the stage index is non-decreasing along the trajectory, and
every recorded mass is at least `-(largest stage dry mass)` — the original
`mass ≥ 0` bound can fail by up to one dry mass at a staging sample, because
`check_staging` subtracts the jettisoned dry mass without flooring. -/
theorem c1_state_invariants (m : Mission ℝ) (cfg : SimConfig ℝ) (ctrl : Ctrl ℝ σ)
    (cs0 : σ) (fuel : ℕ)
    (hsane : ∀ st ∈ m.stages, 0 ≤ st.dry_mass ∧ 0 ≤ st.propellant_mass)
    (hraws : raws_ok realOps m cfg ctrl fuel (init_state m) cs0 false) :
    (∀ x ∈ (simulate_with realOps m cfg ctrl cs0 fuel).1, c1_inv m x) ∧
      List.Chain' (fun a b : State ℝ => a.stage_idx ≤ b.stage_idx)
        (simulate_with realOps m cfg ctrl cs0 fuel).1 := by
  have h0 := c1_inv_init m hsane
  obtain ⟨hmem, hchain⟩ :=
    sim_loop_c1_inv m cfg ctrl fuel (init_state m) cs0 false h0 hraws
  constructor
  · intro x hx
    simp only [simulate_with, List.mem_cons] at hx
    rcases hx with hx | hx
    · subst hx
      exact h0
    · exact hmem x hx
  · show List.Chain' _ (init_state m :: (sim_loop realOps m cfg ctrl fuel (init_state m)
      cs0 false).1)
    exact hchain

/-- Witness for C1's amended claim at a concrete input: a zero-fuel run on a
sane single-stage real mission records only the ignition sample, which
satisfies the invariant. -/
theorem c1_state_invariants_witness : c1_inv wMissionR (init_state wMissionR) := by
  have h := c1_state_invariants wMissionR ⟨1 / 200, 300⟩ zeroCtrl () 0
    (by intro st hmem
        simp [wMissionR] at hmem
        subst hmem
        norm_num)
    trivial
  exact h.1 (init_state wMissionR) (by simp [simulate_with, sim_loop_zero])

end RocketSim
